import Mathlib

/-!
Verification of the photo-scrub editing-session engine (`photo_editor.py`).

The development shallowly embeds the algorithmic core of the program:

* the filename allocator `generate_new_filename` (folder snapshots are lists
  of file names; `Path.suffix` / `str.lower` / the case-insensitive regular
  expressions are modelled character by character on `List Char`);
* the date-normalisation fallback of `normalize_date` (the strict
  `datetime.strptime` templates are an external collaborator and are passed
  in as a parameter where the whole parser is needed);
* the crop-drag geometry `on_mouse_drag` (machine coordinates are `Int`,
  exactly as Python's unbounded integers; the display-to-image conversion
  `int(delta / scale)` is a float operation of the presentation layer, so the
  image-space delta is taken as the input);
* the editing session and gallery (`load_image`, `save_image`,
  `save_current_without_advancing`, `prev_image`, `undo_changes`, ...) over an
  abstract pixel-buffer type `Img` with the image library's operations
  supplied as a structure of functions.  Fallible external calls (EXIF dump,
  JPEG encode, file delete, decode of the next image) receive explicit
  failure oracles so that the error paths of the `try/except` blocks can be
  analysed.
-/

/-! ## Decimal representation of naturals

`Nat.repr` is what the f-strings of the source produce for the running
number.  We relate it to a structurally recursive digit list so that the
allocator's collision loop can be analysed. -/

/-- Structural decimal digit list of a natural number, most significant
digit first. -/
def natDigits (n : Nat) : List Char :=
  if _h : n < 10 then [Nat.digitChar n]
  else natDigits (n / 10) ++ [Nat.digitChar (n % 10)]
  decreasing_by exact Nat.div_lt_self (by omega) (by omega)

/-- Numeric value of a decimal digit character. -/
def digitVal (c : Char) : Nat := c.toNat - 48

/-- Value of a digit string, most significant digit first (this is what
Python's `int(...)` computes on a digit run). -/
def digitsToNat (l : List Char) : Nat :=
  l.foldl (fun a c => 10 * a + digitVal c) 0

theorem digitVal_digitChar (d : Nat) (h : d < 10) :
    digitVal (Nat.digitChar d) = d := by
  interval_cases d <;> rfl

theorem isDigit_digitChar (d : Nat) (h : d < 10) :
    (Nat.digitChar d).isDigit = true := by
  interval_cases d <;> rfl

theorem natDigits_ne_nil (n : Nat) : natDigits n ≠ [] := by
  rw [natDigits]
  split <;> simp

theorem natDigits_all_digits (n : Nat) :
    ∀ c ∈ natDigits n, c.isDigit = true := by
  induction n using Nat.strong_induction_on with
  | _ n ih =>
    rw [natDigits]
    split
    · next h =>
      intro c hc
      simp only [List.mem_singleton] at hc
      subst hc
      exact isDigit_digitChar n h
    · next h =>
      intro c hc
      rcases List.mem_append.mp hc with h1 | h2
      · exact ih (n / 10) (Nat.div_lt_self (by omega) (by omega)) c h1
      · simp only [List.mem_singleton] at h2
        subst h2
        exact isDigit_digitChar (n % 10) (Nat.mod_lt n (by omega))

theorem digitsToNat_append_singleton (l : List Char) (c : Char) :
    digitsToNat (l ++ [c]) = 10 * digitsToNat l + digitVal c := by
  simp [digitsToNat, List.foldl_append]

theorem digitsToNat_natDigits (n : Nat) : digitsToNat (natDigits n) = n := by
  induction n using Nat.strong_induction_on with
  | _ n ih =>
    rw [natDigits]
    split
    · next h =>
      simp [digitsToNat, digitVal_digitChar n h]
    · next h =>
      rw [digitsToNat_append_singleton,
        ih (n / 10) (Nat.div_lt_self (by omega) (by omega)),
        digitVal_digitChar (n % 10) (Nat.mod_lt n (by omega))]
      omega

theorem toDigitsCore_eq_natDigits :
    ∀ (fuel n : Nat) (ds : List Char), n < fuel →
      Nat.toDigitsCore 10 fuel n ds = natDigits n ++ ds := by
  intro fuel
  induction fuel with
  | zero => intro n ds h; omega
  | succ fuel ih =>
    intro n ds h
    show (if n / 10 = 0 then Nat.digitChar (n % 10) :: ds
        else Nat.toDigitsCore 10 fuel (n / 10) (Nat.digitChar (n % 10) :: ds))
      = natDigits n ++ ds
    by_cases h10 : n / 10 = 0
    · have hn : n < 10 := by omega
      rw [if_pos h10, natDigits]
      rw [dif_pos hn]
      have : n % 10 = n := Nat.mod_eq_of_lt hn
      rw [this]
      rfl
    · rw [if_neg h10]
      have hlt : n / 10 < fuel := by
        have h2 : n / 10 < n := Nat.div_lt_self (by omega) (by omega)
        omega
      rw [ih (n / 10) (Nat.digitChar (n % 10) :: ds) hlt]
      conv_rhs => rw [natDigits]
      rw [dif_neg (by omega)]
      simp

theorem repr_data (n : Nat) : (Nat.repr n).data = natDigits n := by
  show (Nat.toDigits 10 n).asString.data = natDigits n
  rw [Nat.toDigits, toDigitsCore_eq_natDigits (n + 1) n [] (by omega)]
  simp [List.asString]

theorem digitsToNat_repr (n : Nat) : digitsToNat (Nat.repr n).data = n := by
  rw [repr_data]; exact digitsToNat_natDigits n

/-! ## Filename allocator (`generate_new_filename`, lines 755-808)

A folder snapshot is the list of names of the plain files in the folder
(`folder.iterdir()` filtered by `is_file()`); `Path` values inside one folder
compare equal iff their names do.  The regular expressions
`^{date}\s+\({folder}\)\s+(\d+){ext}$` and `^{folder}\s+(\d+){ext}$`
(compiled with `re.IGNORECASE` over `re.escape`d literals) are modelled by a
deterministic character-level matcher: every variable-width piece (`\s+`,
`(\d+)`) is followed by a character it cannot match, so the backtracking
regex engine and the maximal-munch parser agree. -/

/-- ASCII whitespace recognised by `\s`. -/
def isPySpace (c : Char) : Bool :=
  c ∈ [' ', '\t', '\n', '\r', '\x0b', '\x0c']

/-- Python `str.lower()` (ASCII case folding, which is all that reaches the
allocator: dates, folder names and extensions). -/
def pyLower (s : String) : String := ⟨s.data.map Char.toLower⟩

/-- Characters after the last '.' of a list, if any dot is present. -/
def afterLastDot : List Char → Option (List Char)
  | [] => none
  | c :: cs =>
    match afterLastDot cs with
    | some r => some r
    | none => if c = '.' then some cs else none

/-- `pathlib.PurePath.suffix` on a bare file name: the part from the last
dot on, empty when the only dot is leading or trailing. -/
def suffixChars : List Char → List Char
  | [] => []
  | _ :: cs =>
    match afterLastDot cs with
    | some [] => []
    | some r => '.' :: r
    | none => []

/-- `Path(name).suffix`. -/
def pySuffix (s : String) : String := ⟨suffixChars s.data⟩

/-- Case-insensitive literal prefix strip: `some rest` when `pat` (compared
through `Char.toLower`) is a prefix of the input. -/
def stripPrefixCI : List Char → List Char → Option (List Char)
  | [], s => some s
  | _ :: _, [] => none
  | p :: ps, c :: cs =>
    if p.toLower = c.toLower then stripPrefixCI ps cs else none

/-- Matches `(\d+){ext}$`: a nonempty digit run, then the literal extension,
then the end of the name. -/
def matchNumTail (ext l : List Char) : Option Nat :=
  let ds := l.takeWhile Char.isDigit
  let rest := l.dropWhile Char.isDigit
  if ds.isEmpty then none
  else
    match stripPrefixCI ext rest with
    | some [] => some (digitsToNat ds)
    | _ => none

/-- Matches `\s+(\d+){ext}$`. -/
def matchAfterSpaces (ext l : List Char) : Option Nat :=
  let sp := l.takeWhile isPySpace
  let rest := l.dropWhile isPySpace
  if sp.isEmpty then none else matchNumTail ext rest

/-- The dated pattern `^{date}\s+\({folder}\)\s+(\d+){ext}$`, IGNORECASE. -/
def matchDatedChars (date folder ext name : List Char) : Option Nat :=
  match stripPrefixCI date name with
  | none => none
  | some r1 =>
    let sp := r1.takeWhile isPySpace
    let r2 := r1.dropWhile isPySpace
    if sp.isEmpty then none
    else
      match stripPrefixCI ('(' :: (folder ++ [')'])) r2 with
      | none => none
      | some r3 => matchAfterSpaces ext r3

/-- The undated pattern `^{folder}\s+(\d+){ext}$`, IGNORECASE. -/
def matchPlainChars (folder ext name : List Char) : Option Nat :=
  match stripPrefixCI folder name with
  | none => none
  | some r1 => matchAfterSpaces ext r1

/-- String-level wrapper for the dated pattern. -/
def matchDatedName (date folder ext name : String) : Option Nat :=
  matchDatedChars date.data folder.data ext.data name.data

/-- String-level wrapper for the undated pattern. -/
def matchPlainName (folder ext name : String) : Option Nat :=
  matchPlainChars folder.data ext.data name.data

/-- The f-string of line 781/786: `"{date} ({folder}) {n}{ext}"`. -/
def mkDatedName (date folder : String) (n : Nat) (ext : String) : String :=
  date ++ " (" ++ folder ++ ") " ++ Nat.repr n ++ ext

/-- The f-string of line 801/806: `"{folder} {n}{ext}"`. -/
def mkPlainName (folder : String) (n : Nat) (ext : String) : String :=
  folder ++ " " ++ Nat.repr n ++ ext

/-- The `while new_path.exists() and new_path != original_path` loop: bump
the running number past names that are on disk and are not the file being
saved.  `fuel` is an upper bound on the number of iterations; the caller
passes `disk.length + 1`, which is proved sufficient below. -/
def bumpNum (disk : List String) (orig : String) (mk : Nat → String) :
    Nat → Nat → Nat
  | 0, n => n
  | fuel + 1, n =>
    if mk n ∈ disk ∧ mk n ≠ orig then bumpNum disk orig mk fuel (n + 1)
    else n

/-- Matched running numbers of the dated branch (lines 767-777): files whose
name matches the dated pattern, excluding the file being saved. -/
def datedNums (disk : List String) (origName date folderName ext : String) :
    List Nat :=
  disk.filterMap fun f =>
    if f ≠ origName then matchDatedName date folderName ext f else none

/-- Matched running numbers of the undated branch (lines 790-797); note the
file being saved is not excluded here. -/
def plainNums (disk : List String) (folderName ext : String) : List Nat :=
  disk.filterMap fun f => matchPlainName folderName ext f

/-- `generate_new_filename` (lines 755-808): `disk` is the folder snapshot,
`origName` the name of `original_path`, `folderName` the folder's name and
`currentDate` the session date.  Returns the name of the generated path. -/
def generate_new_filename (disk : List String) (origName folderName : String)
    (currentDate : Option String) : String :=
  let ext := pyLower (pySuffix origName)
  match currentDate with
  | some date =>
    let next0 := (datedNums disk origName date folderName ext).foldr max 0 + 1
    mkDatedName date folderName
      (bumpNum disk origName (fun n => mkDatedName date folderName n ext)
        (disk.length + 1) next0) ext
  | none =>
    let next0 := (plainNums disk folderName ext).foldr max 0 + 1
    mkPlainName folderName
      (bumpNum disk origName (fun n => mkPlainName folderName n ext)
        (disk.length + 1) next0) ext

/-- Modelled from the spec: the allocator of §4.3 in which the matching step
excludes the file being saved in both naming branches ("matches this
template case-insensitively against every file currently in the folder
(excluding the file being saved, when it already matches the same date/name
pattern)").  It differs from `generate_new_filename` only in the undated
branch's exclusion. -/
def nextPath_specModel (disk : List String) (origName folderName : String)
    (currentDate : Option String) : String :=
  let ext := pyLower (pySuffix origName)
  match currentDate with
  | some date =>
    let nums := disk.filterMap fun f =>
      if f ≠ origName then matchDatedName date folderName ext f else none
    let next0 := nums.foldr max 0 + 1
    mkDatedName date folderName
      (bumpNum disk origName (fun n => mkDatedName date folderName n ext)
        (disk.length + 1) next0) ext
  | none =>
    let nums := disk.filterMap fun f =>
      if f ≠ origName then matchPlainName folderName ext f else none
    let next0 := nums.foldr max 0 + 1
    mkPlainName folderName
      (bumpNum disk origName (fun n => mkPlainName folderName n ext)
        (disk.length + 1) next0) ext

/-! ### Matcher round-trip on generated names -/

/-- Character-level form of `mkDatedName`. -/
def mkDatedChars (date folder : List Char) (n : Nat) (ext : List Char) :
    List Char :=
  date ++ ' ' :: '(' :: (folder ++ ')' :: ' ' :: (natDigits n ++ ext))

/-- Character-level form of `mkPlainName`. -/
def mkPlainChars (folder : List Char) (n : Nat) (ext : List Char) :
    List Char :=
  folder ++ ' ' :: (natDigits n ++ ext)

theorem mkDatedName_data (date folder ext : String) (n : Nat) :
    (mkDatedName date folder n ext).data
      = mkDatedChars date.data folder.data n ext.data := by
  simp only [mkDatedName, mkDatedChars, String.data_append, repr_data,
    List.append_assoc]
  rfl

theorem mkPlainName_data (folder ext : String) (n : Nat) :
    (mkPlainName folder n ext).data
      = mkPlainChars folder.data n ext.data := by
  simp only [mkPlainName, mkPlainChars, String.data_append, repr_data,
    List.append_assoc]
  rfl

theorem stripPrefixCI_append (p r : List Char) :
    stripPrefixCI p (p ++ r) = some r := by
  induction p with
  | nil => rfl
  | cons a t ih => simp [stripPrefixCI, ih]

theorem stripPrefixCI_self (p : List Char) : stripPrefixCI p p = some [] := by
  have h := stripPrefixCI_append p []
  simpa using h

theorem takeWhile_all_append (p : Char → Bool) (xs rest : List Char)
    (hxs : ∀ c ∈ xs, p c = true) :
    (xs ++ rest).takeWhile p = xs ++ rest.takeWhile p := by
  induction xs with
  | nil => simp
  | cons a t ih =>
    have ha : p a = true := hxs a (by simp)
    simp only [List.cons_append, List.takeWhile_cons, ha, if_pos]
    rw [ih fun c hc => hxs c (by simp [hc])]

theorem dropWhile_all_append (p : Char → Bool) (xs rest : List Char)
    (hxs : ∀ c ∈ xs, p c = true) :
    (xs ++ rest).dropWhile p = rest.dropWhile p := by
  induction xs with
  | nil => simp
  | cons a t ih =>
    have ha : p a = true := hxs a (by simp)
    simp only [List.cons_append, List.dropWhile_cons, ha, if_pos]
    exact ih fun c hc => hxs c (by simp [hc])

theorem takeWhile_head_false (p : Char → Bool) (l : List Char)
    (h : ∀ c, l.head? = some c → p c = false) : l.takeWhile p = [] := by
  cases l with
  | nil => rfl
  | cons a t => simp [List.takeWhile_cons, h a rfl]

theorem dropWhile_head_false (p : Char → Bool) (l : List Char)
    (h : ∀ c, l.head? = some c → p c = false) : l.dropWhile p = l := by
  cases l with
  | nil => rfl
  | cons a t => simp [List.dropWhile_cons, h a rfl]

theorem not_pySpace_of_isDigit (c : Char) (h : c.isDigit = true) :
    isPySpace c = false := by
  by_contra hc
  have hmem : c ∈ [' ', '\t', '\n', '\r', '\x0b', '\x0c'] := by
    have ht : isPySpace c = true := by
      cases hb : isPySpace c
      · exact absurd hb hc
      · rfl
    simpa [isPySpace] using ht
  fin_cases hmem <;> simp_all

theorem numTail_head_not_space (n : Nat) (ext : List Char) :
    ∀ c, (natDigits n ++ ext).head? = some c → isPySpace c = false := by
  intro c hc
  obtain ⟨d, ds, hnd⟩ : ∃ d ds, natDigits n = d :: ds := by
    cases hn : natDigits n with
    | nil => exact absurd hn (natDigits_ne_nil n)
    | cons d ds => exact ⟨d, ds, rfl⟩
  rw [hnd] at hc
  simp only [List.cons_append, List.head?_cons, Option.some.injEq] at hc
  subst hc
  exact not_pySpace_of_isDigit d (natDigits_all_digits n d (by rw [hnd]; simp))

theorem matchNumTail_roundtrip (ext : List Char) (n : Nat)
    (hext : ∀ c, ext.head? = some c → c.isDigit = false) :
    matchNumTail ext (natDigits n ++ ext) = some n := by
  have htw : (natDigits n ++ ext).takeWhile Char.isDigit = natDigits n := by
    rw [takeWhile_all_append Char.isDigit (natDigits n) ext
        (natDigits_all_digits n),
      takeWhile_head_false Char.isDigit ext hext, List.append_nil]
  have hdw : (natDigits n ++ ext).dropWhile Char.isDigit = ext := by
    rw [dropWhile_all_append Char.isDigit (natDigits n) ext
        (natDigits_all_digits n),
      dropWhile_head_false Char.isDigit ext hext]
  simp only [matchNumTail, htw, hdw, stripPrefixCI_self,
    List.isEmpty_eq_true]
  rw [if_neg (natDigits_ne_nil n)]
  rw [digitsToNat_natDigits]

theorem matchAfterSpaces_roundtrip (ext : List Char) (n : Nat)
    (hext : ∀ c, ext.head? = some c → c.isDigit = false) :
    matchAfterSpaces ext (' ' :: (natDigits n ++ ext)) = some n := by
  have hsp : isPySpace ' ' = true := by decide
  simp only [matchAfterSpaces, List.takeWhile_cons, List.dropWhile_cons, hsp,
    if_pos, takeWhile_head_false isPySpace _ (numTail_head_not_space n ext),
    dropWhile_head_false isPySpace _ (numTail_head_not_space n ext)]
  simpa using matchNumTail_roundtrip ext n hext

theorem matchDatedChars_roundtrip (date folder ext : List Char) (n : Nat)
    (hext : ∀ c, ext.head? = some c → c.isDigit = false) :
    matchDatedChars date folder ext (mkDatedChars date folder n ext)
      = some n := by
  have h1 : stripPrefixCI date (mkDatedChars date folder n ext)
      = some (' ' :: '(' :: (folder ++ ')' :: ' ' :: (natDigits n ++ ext))) :=
    stripPrefixCI_append date _
  have h2 : stripPrefixCI ('(' :: (folder ++ [')']))
      ('(' :: (folder ++ ')' :: ' ' :: (natDigits n ++ ext)))
      = some (' ' :: (natDigits n ++ ext)) := by
    have h := stripPrefixCI_append ('(' :: (folder ++ [')']))
      (' ' :: (natDigits n ++ ext))
    simpa [List.append_assoc] using h
  have hsp : isPySpace ' ' = true := by decide
  have hpar : isPySpace '(' = false := by decide
  simp only [matchDatedChars, h1, List.takeWhile_cons, List.dropWhile_cons,
    hsp, hpar, if_pos, if_neg, List.takeWhile_nil, List.isEmpty_cons,
    Bool.false_eq_true, if_false, h2]
  exact matchAfterSpaces_roundtrip ext n hext

theorem matchPlainChars_roundtrip (folder ext : List Char) (n : Nat)
    (hext : ∀ c, ext.head? = some c → c.isDigit = false) :
    matchPlainChars folder ext (mkPlainChars folder n ext) = some n := by
  have h1 : stripPrefixCI folder (mkPlainChars folder n ext)
      = some (' ' :: (natDigits n ++ ext)) := stripPrefixCI_append folder _
  simp only [matchPlainChars, h1]
  exact matchAfterSpaces_roundtrip ext n hext

/-! ### The generated extension never starts with a digit -/

theorem suffixChars_shape (l : List Char) :
    suffixChars l = [] ∨ ∃ r, suffixChars l = '.' :: r := by
  cases l with
  | nil => left; rfl
  | cons a cs =>
    cases h : afterLastDot cs with
    | none => left; simp [suffixChars, h]
    | some r =>
      cases r with
      | nil => left; simp [suffixChars, h]
      | cons b bs => right; exact ⟨b :: bs, by simp [suffixChars, h]⟩

theorem ext_head_not_digit (s : String) :
    ∀ c, (pyLower (pySuffix s)).data.head? = some c → c.isDigit = false := by
  intro c hc
  have hdat : (pyLower (pySuffix s)).data
      = (suffixChars s.data).map Char.toLower := rfl
  rw [hdat] at hc
  rcases suffixChars_shape s.data with h | ⟨r, h⟩
  · rw [h] at hc; simp at hc
  · rw [h] at hc
    simp only [List.map_cons, List.head?_cons, Option.some.injEq] at hc
    subst hc
    decide

theorem matchDatedName_mk (date folder orig : String) (n : Nat) :
    matchDatedName date folder (pyLower (pySuffix orig))
      (mkDatedName date folder n (pyLower (pySuffix orig))) = some n := by
  unfold matchDatedName
  rw [mkDatedName_data]
  exact matchDatedChars_roundtrip date.data folder.data _ n
    (ext_head_not_digit orig)

theorem matchPlainName_mk (folder orig : String) (n : Nat) :
    matchPlainName folder (pyLower (pySuffix orig))
      (mkPlainName folder n (pyLower (pySuffix orig))) = some n := by
  unfold matchPlainName
  rw [mkPlainName_data]
  exact matchPlainChars_roundtrip folder.data _ n (ext_head_not_digit orig)

/-! ### The collision loop -/

theorem bumpNum_ge (disk : List String) (orig : String) (mk : Nat → String) :
    ∀ fuel n, n ≤ bumpNum disk orig mk fuel n := by
  intro fuel
  induction fuel with
  | zero => intro n; exact Nat.le_refl n
  | succ fuel ih =>
    intro n
    rw [bumpNum]
    split
    · exact Nat.le_trans (Nat.le_succ n) (ih (n + 1))
    · exact Nat.le_refl n

theorem bumpNum_collides_below (disk : List String) (orig : String)
    (mk : Nat → String) :
    ∀ fuel n k, n ≤ k → k < bumpNum disk orig mk fuel n →
      mk k ∈ disk ∧ mk k ≠ orig := by
  intro fuel
  induction fuel with
  | zero =>
    intro n k hnk hk
    rw [bumpNum] at hk
    omega
  | succ fuel ih =>
    intro n k hnk hk
    rw [bumpNum] at hk
    by_cases h : mk n ∈ disk ∧ mk n ≠ orig
    · rw [if_pos h] at hk
      rcases Nat.eq_or_lt_of_le hnk with rfl | hlt
      · exact h
      · exact ih (n + 1) k hlt hk
    · rw [if_neg h] at hk
      omega

/-- Files whose parsed running number is at least `n` (and which are not the
file being saved): the quantity the collision loop strictly shrinks. -/
def matchGeB (parse : String → Option Nat) (n : Nat) (f : String) : Bool :=
  match parse f with
  | some m => decide (n ≤ m)
  | none => false

theorem length_filter_mono {α : Type} (l : List α) (p q : α → Bool)
    (h : ∀ a, q a = true → p a = true) :
    (l.filter q).length ≤ (l.filter p).length := by
  induction l with
  | nil => exact Nat.le_refl 0
  | cons a t ih =>
    by_cases hq : q a = true
    · rw [List.filter_cons_of_pos hq, List.filter_cons_of_pos (h a hq)]
      exact Nat.succ_le_succ ih
    · rw [List.filter_cons_of_neg (by simpa using hq)]
      by_cases hp : p a = true
      · rw [List.filter_cons_of_pos hp]
        exact Nat.le_trans ih (Nat.le_succ _)
      · rw [List.filter_cons_of_neg (by simpa using hp)]
        exact ih

theorem length_filter_strict {α : Type} [DecidableEq α] (l : List α)
    (p q : α → Bool) (h : ∀ x, q x = true → p x = true) (a : α) (ha : a ∈ l)
    (hpa : p a = true) (hqa : q a = false) :
    (l.filter q).length < (l.filter p).length := by
  induction l with
  | nil => cases ha
  | cons b t ih =>
    rcases List.mem_cons.mp ha with rfl | hat
    · rw [List.filter_cons_of_pos hpa, List.filter_cons_of_neg (by simp [hqa])]
      exact Nat.lt_succ_of_le (length_filter_mono t p q h)
    · by_cases hq : q b = true
      · rw [List.filter_cons_of_pos hq, List.filter_cons_of_pos (h b hq)]
        exact Nat.succ_lt_succ (ih hat)
      · rw [List.filter_cons_of_neg (by simpa using hq)]
        by_cases hp : p b = true
        · rw [List.filter_cons_of_pos hp]
          exact Nat.lt_succ_of_lt (ih hat)
        · rw [List.filter_cons_of_neg (by simpa using hp)]
          exact ih hat

/-- Number of potential future collisions seen from running number `n`. -/
def collCount (disk : List String) (orig : String)
    (parse : String → Option Nat) (n : Nat) : Nat :=
  (disk.filter fun f => decide (f ≠ orig) && matchGeB parse n f).length

theorem bumpNum_free (disk : List String) (orig : String) (mk : Nat → String)
    (parse : String → Option Nat) (hparse : ∀ m, parse (mk m) = some m) :
    ∀ fuel n, collCount disk orig parse n < fuel →
      ¬(mk (bumpNum disk orig mk fuel n) ∈ disk
        ∧ mk (bumpNum disk orig mk fuel n) ≠ orig) := by
  intro fuel
  induction fuel with
  | zero => intro n h; omega
  | succ fuel ih =>
    intro n hcount
    rw [bumpNum]
    by_cases h : mk n ∈ disk ∧ mk n ≠ orig
    · rw [if_pos h]
      apply ih
      have hmono : ∀ x : String,
          (decide (x ≠ orig) && matchGeB parse (n + 1) x) = true →
          (decide (x ≠ orig) && matchGeB parse n x) = true := by
        intro x hx
        rw [Bool.and_eq_true] at hx
        obtain ⟨hx1, hx2⟩ := hx
        rw [Bool.and_eq_true]
        refine ⟨hx1, ?_⟩
        unfold matchGeB at hx2 ⊢
        cases hpx : parse x with
        | none => rw [hpx] at hx2; exact absurd hx2 (by simp)
        | some m =>
          rw [hpx] at hx2
          have hx2' : decide (n + 1 ≤ m) = true := hx2
          show decide (n ≤ m) = true
          simp only [decide_eq_true_eq] at hx2' ⊢
          omega
      have hpa : (decide (mk n ≠ orig) && matchGeB parse n (mk n)) = true := by
        rw [Bool.and_eq_true]
        refine ⟨by simpa using h.2, ?_⟩
        unfold matchGeB
        rw [hparse n]
        simp
      have hqa : (decide (mk n ≠ orig)
          && matchGeB parse (n + 1) (mk n)) = false := by
        have hm : matchGeB parse (n + 1) (mk n) = false := by
          unfold matchGeB
          rw [hparse n]
          simp
        rw [hm, Bool.and_false]
      have hdec := length_filter_strict disk
        (fun f => decide (f ≠ orig) && matchGeB parse n f)
        (fun f => decide (f ≠ orig) && matchGeB parse (n + 1) f)
        hmono (mk n) h.1 hpa hqa
      unfold collCount at hcount ⊢
      omega
    · rw [if_neg h]
      exact h

theorem bumpNum_free_start (disk : List String) (orig : String)
    (mk : Nat → String) (parse : String → Option Nat)
    (hparse : ∀ m, parse (mk m) = some m) (n : Nat) :
    ¬(mk (bumpNum disk orig mk (disk.length + 1) n) ∈ disk
      ∧ mk (bumpNum disk orig mk (disk.length + 1) n) ≠ orig) := by
  apply bumpNum_free disk orig mk parse hparse
  have h := List.length_filter_le
    (fun f => decide (f ≠ orig) && matchGeB parse n f) disk
  unfold collCount
  omega

/-! ### Claims C1 and C2 -/

theorem generate_dated_eq (disk : List String) (orig folder date : String) :
    generate_new_filename disk orig folder (some date)
      = mkDatedName date folder
          (bumpNum disk orig
            (fun n => mkDatedName date folder n (pyLower (pySuffix orig)))
            (disk.length + 1)
            ((datedNums disk orig date folder
              (pyLower (pySuffix orig))).foldr max 0 + 1))
          (pyLower (pySuffix orig)) := rfl

theorem generate_plain_eq (disk : List String) (orig folder : String) :
    generate_new_filename disk orig folder none
      = mkPlainName folder
          (bumpNum disk orig
            (fun n => mkPlainName folder n (pyLower (pySuffix orig)))
            (disk.length + 1)
            ((plainNums disk folder
              (pyLower (pySuffix orig))).foldr max 0 + 1))
          (pyLower (pySuffix orig)) := rfl

/-- C1 (counterexample): the claim's matching step "excluding the file being
saved when it already matches the same date/name pattern" does not hold of
the undated branch.  Saving `"trip 2.jpg"` (no date) in folder `trip` whose
snapshot holds only that file: the code counts the file's own number 2 and
returns `"trip 3.jpg"`, while the allocator described by the claim (modelled
by `nextPath_specModel`) would exclude it and return `"trip 1.jpg"`. -/
theorem c1_counterexample :
    generate_new_filename ["trip 2.jpg"] "trip 2.jpg" "trip" none
        = "trip 3.jpg"
      ∧ nextPath_specModel ["trip 2.jpg"] "trip 2.jpg" "trip" none
        = "trip 1.jpg"
      ∧ generate_new_filename ["trip 2.jpg"] "trip 2.jpg" "trip" none
        ≠ nextPath_specModel ["trip 2.jpg"] "trip 2.jpg" "trip" none := by
  refine ⟨by decide, by decide, by decide⟩

/-- C1 (amended): the allocator builds `"{date} ({folderName}) {n}{ext}"`
when a date is set, otherwise `"{folderName} {n}{ext}"`; it matches the
template case-insensitively against the folder snapshot, excluding the file
being saved in the dated branch only; it starts at the maximum matched
running number plus one (1 when none matched) and then increments past every
remaining on-disk collision (a collision with the file being saved itself
stops the loop); the folder with `"... 1.jpg"` and `"... 2.jpg"` yields
`"... 3.jpg"`; and the result is a function of the snapshot alone (repeated
calls agree). -/
theorem c1_allocator_behaviour :
    (∀ (disk : List String) (orig folder date : String), ∃ N : Nat,
      generate_new_filename disk orig folder (some date)
          = mkDatedName date folder N (pyLower (pySuffix orig))
        ∧ (datedNums disk orig date folder
            (pyLower (pySuffix orig))).foldr max 0 + 1 ≤ N
        ∧ ¬(mkDatedName date folder N (pyLower (pySuffix orig)) ∈ disk
            ∧ mkDatedName date folder N (pyLower (pySuffix orig)) ≠ orig)
        ∧ ∀ k, (datedNums disk orig date folder
              (pyLower (pySuffix orig))).foldr max 0 + 1 ≤ k → k < N →
            mkDatedName date folder k (pyLower (pySuffix orig)) ∈ disk
              ∧ mkDatedName date folder k (pyLower (pySuffix orig)) ≠ orig)
    ∧ (∀ (disk : List String) (orig folder : String), ∃ N : Nat,
      generate_new_filename disk orig folder none
          = mkPlainName folder N (pyLower (pySuffix orig))
        ∧ (plainNums disk folder
            (pyLower (pySuffix orig))).foldr max 0 + 1 ≤ N
        ∧ ¬(mkPlainName folder N (pyLower (pySuffix orig)) ∈ disk
            ∧ mkPlainName folder N (pyLower (pySuffix orig)) ≠ orig)
        ∧ ∀ k, (plainNums disk folder
              (pyLower (pySuffix orig))).foldr max 0 + 1 ≤ k → k < N →
            mkPlainName folder k (pyLower (pySuffix orig)) ∈ disk
              ∧ mkPlainName folder k (pyLower (pySuffix orig)) ≠ orig)
    ∧ generate_new_filename
        ["2024-01-15 (trip) 1.jpg", "2024-01-15 (trip) 2.jpg", "scan.jpg"]
        "scan.jpg" "trip" (some "2024-01-15") = "2024-01-15 (trip) 3.jpg"
    ∧ ∀ (disk : List String) (orig folder : String) (d : Option String),
        generate_new_filename disk orig folder d
          = generate_new_filename disk orig folder d := by
  refine ⟨?_, ?_, by decide, fun _ _ _ _ => rfl⟩
  · intro disk orig folder date
    refine ⟨bumpNum disk orig
        (fun n => mkDatedName date folder n (pyLower (pySuffix orig)))
        (disk.length + 1)
        ((datedNums disk orig date folder
          (pyLower (pySuffix orig))).foldr max 0 + 1),
      generate_dated_eq disk orig folder date,
      bumpNum_ge disk orig _ (disk.length + 1) _,
      bumpNum_free_start disk orig _
        (matchDatedName date folder (pyLower (pySuffix orig)))
        (fun m => matchDatedName_mk date folder orig m) _,
      fun k hk1 hk2 =>
        bumpNum_collides_below disk orig _ (disk.length + 1) _ k hk1 hk2⟩
  · intro disk orig folder
    refine ⟨bumpNum disk orig
        (fun n => mkPlainName folder n (pyLower (pySuffix orig)))
        (disk.length + 1)
        ((plainNums disk folder
          (pyLower (pySuffix orig))).foldr max 0 + 1),
      generate_plain_eq disk orig folder,
      bumpNum_ge disk orig _ (disk.length + 1) _,
      bumpNum_free_start disk orig _
        (matchPlainName folder (pyLower (pySuffix orig)))
        (fun m => matchPlainName_mk folder orig m) _,
      fun k hk1 hk2 =>
        bumpNum_collides_below disk orig _ (disk.length + 1) _ k hk1 hk2⟩

/-- C1 (witness): the amended behaviour instantiated at the folder snapshot
of the claim's example. -/
theorem c1_allocator_behaviour_witness :
    ∃ N : Nat,
      generate_new_filename
          ["2024-01-15 (trip) 1.jpg", "2024-01-15 (trip) 2.jpg", "scan.jpg"]
          "scan.jpg" "trip" (some "2024-01-15")
          = mkDatedName "2024-01-15" "trip" N (pyLower (pySuffix "scan.jpg"))
        ∧ (datedNums
            ["2024-01-15 (trip) 1.jpg", "2024-01-15 (trip) 2.jpg", "scan.jpg"]
            "scan.jpg" "2024-01-15" "trip"
            (pyLower (pySuffix "scan.jpg"))).foldr max 0 + 1 ≤ N
        ∧ ¬(mkDatedName "2024-01-15" "trip" N (pyLower (pySuffix "scan.jpg"))
              ∈ ["2024-01-15 (trip) 1.jpg", "2024-01-15 (trip) 2.jpg",
                "scan.jpg"]
            ∧ mkDatedName "2024-01-15" "trip" N
                (pyLower (pySuffix "scan.jpg")) ≠ "scan.jpg")
        ∧ ∀ k, (datedNums
              ["2024-01-15 (trip) 1.jpg", "2024-01-15 (trip) 2.jpg",
                "scan.jpg"]
              "scan.jpg" "2024-01-15" "trip"
              (pyLower (pySuffix "scan.jpg"))).foldr max 0 + 1 ≤ k → k < N →
            mkDatedName "2024-01-15" "trip" k (pyLower (pySuffix "scan.jpg"))
                ∈ ["2024-01-15 (trip) 1.jpg", "2024-01-15 (trip) 2.jpg",
                  "scan.jpg"]
              ∧ mkDatedName "2024-01-15" "trip" k
                  (pyLower (pySuffix "scan.jpg")) ≠ "scan.jpg" :=
  c1_allocator_behaviour.1
    ["2024-01-15 (trip) 1.jpg", "2024-01-15 (trip) 2.jpg", "scan.jpg"]
    "scan.jpg" "trip" "2024-01-15"

/-- C2 (counterexample): the running number is not the smallest positive
integer producing a non-colliding matching filename.  With the folder
holding `"2024-01-15 (trip) 5.jpg"` (and the file being saved,
`"scan.jpg"`), the name `"2024-01-15 (trip) 1.jpg"` matches the template and
does not collide, yet the code returns running number 6 (max matched + 1),
not 1. -/
theorem c2_counterexample :
    generate_new_filename ["2024-01-15 (trip) 5.jpg", "scan.jpg"]
        "scan.jpg" "trip" (some "2024-01-15") = "2024-01-15 (trip) 6.jpg"
      ∧ mkDatedName "2024-01-15" "trip" 1 (pyLower (pySuffix "scan.jpg"))
        = "2024-01-15 (trip) 1.jpg"
      ∧ "2024-01-15 (trip) 1.jpg"
        ∉ ["2024-01-15 (trip) 5.jpg", "scan.jpg"]
      ∧ "2024-01-15 (trip) 6.jpg" ≠ "2024-01-15 (trip) 1.jpg" := by
  refine ⟨by decide, by decide, by decide, by decide⟩

/-- C2 (amended): in both naming branches the returned running number `N` is
the smallest integer that both exceeds every matched running number of the
corresponding pattern and yields a filename that does not collide with a
different on-disk file; the extension placed in the template is the original
file's `Path.suffix`, lower-cased. -/
theorem c2_running_number_minimal :
    (∀ (disk : List String) (orig folder date : String), ∃ N : Nat,
      generate_new_filename disk orig folder (some date)
          = mkDatedName date folder N (pyLower (pySuffix orig))
        ∧ ¬(mkDatedName date folder N (pyLower (pySuffix orig)) ∈ disk
            ∧ mkDatedName date folder N (pyLower (pySuffix orig)) ≠ orig)
        ∧ (datedNums disk orig date folder
            (pyLower (pySuffix orig))).foldr max 0 < N
        ∧ ∀ k, (datedNums disk orig date folder
              (pyLower (pySuffix orig))).foldr max 0 < k →
            ¬(mkDatedName date folder k (pyLower (pySuffix orig)) ∈ disk
              ∧ mkDatedName date folder k (pyLower (pySuffix orig)) ≠ orig) →
            N ≤ k)
    ∧ (∀ (disk : List String) (orig folder : String), ∃ N : Nat,
      generate_new_filename disk orig folder none
          = mkPlainName folder N (pyLower (pySuffix orig))
        ∧ ¬(mkPlainName folder N (pyLower (pySuffix orig)) ∈ disk
            ∧ mkPlainName folder N (pyLower (pySuffix orig)) ≠ orig)
        ∧ (plainNums disk folder (pyLower (pySuffix orig))).foldr max 0 < N
        ∧ ∀ k, (plainNums disk folder
              (pyLower (pySuffix orig))).foldr max 0 < k →
            ¬(mkPlainName folder k (pyLower (pySuffix orig)) ∈ disk
              ∧ mkPlainName folder k (pyLower (pySuffix orig)) ≠ orig) →
            N ≤ k) := by
  constructor
  · intro disk orig folder date
    refine ⟨bumpNum disk orig
        (fun n => mkDatedName date folder n (pyLower (pySuffix orig)))
        (disk.length + 1)
        ((datedNums disk orig date folder
          (pyLower (pySuffix orig))).foldr max 0 + 1),
      generate_dated_eq disk orig folder date,
      bumpNum_free_start disk orig _
        (matchDatedName date folder (pyLower (pySuffix orig)))
        (fun m => matchDatedName_mk date folder orig m) _,
      by
        have h := bumpNum_ge disk orig
          (fun n => mkDatedName date folder n (pyLower (pySuffix orig)))
          (disk.length + 1)
          ((datedNums disk orig date folder
            (pyLower (pySuffix orig))).foldr max 0 + 1)
        omega,
      ?_⟩
    intro k hk1 hk2
    by_contra hlt
    exact hk2 (bumpNum_collides_below disk orig
      (fun n => mkDatedName date folder n (pyLower (pySuffix orig)))
      (disk.length + 1)
      ((datedNums disk orig date folder
        (pyLower (pySuffix orig))).foldr max 0 + 1)
      k (by omega) (by omega))
  · intro disk orig folder
    refine ⟨bumpNum disk orig
        (fun n => mkPlainName folder n (pyLower (pySuffix orig)))
        (disk.length + 1)
        ((plainNums disk folder
          (pyLower (pySuffix orig))).foldr max 0 + 1),
      generate_plain_eq disk orig folder,
      bumpNum_free_start disk orig _
        (matchPlainName folder (pyLower (pySuffix orig)))
        (fun m => matchPlainName_mk folder orig m) _,
      by
        have h := bumpNum_ge disk orig
          (fun n => mkPlainName folder n (pyLower (pySuffix orig)))
          (disk.length + 1)
          ((plainNums disk folder
            (pyLower (pySuffix orig))).foldr max 0 + 1)
        omega,
      ?_⟩
    intro k hk1 hk2
    by_contra hlt
    exact hk2 (bumpNum_collides_below disk orig
      (fun n => mkPlainName folder n (pyLower (pySuffix orig)))
      (disk.length + 1)
      ((plainNums disk folder (pyLower (pySuffix orig))).foldr max 0 + 1)
      k (by omega) (by omega))

/-- C2 (witness): the amended minimality instantiated at the counterexample
snapshot. -/
theorem c2_running_number_minimal_witness :
    ∃ N : Nat,
      generate_new_filename ["2024-01-15 (trip) 5.jpg", "scan.jpg"]
          "scan.jpg" "trip" (some "2024-01-15")
          = mkDatedName "2024-01-15" "trip" N (pyLower (pySuffix "scan.jpg"))
        ∧ ¬(mkDatedName "2024-01-15" "trip" N (pyLower (pySuffix "scan.jpg"))
              ∈ ["2024-01-15 (trip) 5.jpg", "scan.jpg"]
            ∧ mkDatedName "2024-01-15" "trip" N
                (pyLower (pySuffix "scan.jpg")) ≠ "scan.jpg")
        ∧ (datedNums ["2024-01-15 (trip) 5.jpg", "scan.jpg"] "scan.jpg"
            "2024-01-15" "trip" (pyLower (pySuffix "scan.jpg"))).foldr max 0
          < N
        ∧ ∀ k, (datedNums ["2024-01-15 (trip) 5.jpg", "scan.jpg"] "scan.jpg"
              "2024-01-15" "trip"
              (pyLower (pySuffix "scan.jpg"))).foldr max 0 < k →
            ¬(mkDatedName "2024-01-15" "trip" k
                  (pyLower (pySuffix "scan.jpg"))
                ∈ ["2024-01-15 (trip) 5.jpg", "scan.jpg"]
              ∧ mkDatedName "2024-01-15" "trip" k
                  (pyLower (pySuffix "scan.jpg")) ≠ "scan.jpg") →
            N ≤ k :=
  c2_running_number_minimal.1 ["2024-01-15 (trip) 5.jpg", "scan.jpg"]
    "scan.jpg" "trip" "2024-01-15"

/-! ## Date heuristic fallback (`normalize_date`, lines 673-737)

The strict stage (lines 678-698) is a loop over `datetime.strptime`
templates — an external library collaborator — and is threaded through as an
opaque parameter `strict`.  The fallback of lines 700-737 is embedded
exactly: `re.findall` of maximal digit runs, the three-group magnitude
disambiguation, and the compact 4-6 digit path with its century rule and
range check. -/

/-- Maximal digit runs of a character list (`re.findall` of one-or-more
digits); `acc` holds the current run, reversed. -/
def digitRunsAux : List Char → List Char → List (List Char)
  | [], acc => if acc.isEmpty then [] else [acc.reverse]
  | c :: cs, acc =>
    if c.isDigit then digitRunsAux cs (c :: acc)
    else if acc.isEmpty then digitRunsAux cs []
    else acc.reverse :: digitRunsAux cs []

/-- All maximal digit runs of a string. -/
def digitRuns (l : List Char) : List (List Char) := digitRunsAux l []

/-- Zero-padded decimal rendering, Python's `f"{n:0wd}"` for `n ≥ 0`. -/
def pad (w n : Nat) : String :=
  ⟨List.replicate (w - (Nat.repr n).data.length) '0' ++ (Nat.repr n).data⟩

/-- The output template `f"{y:04d}-{m:02d}-{d:02d}"`. -/
def fmtDate (y m d : Nat) : String :=
  pad 4 y ++ "-" ++ pad 2 m ++ "-" ++ pad 2 d

/-- The two-digit-year century rule of lines 714 and 722: values above 50
map to the 1900s, the rest to the 2000s. -/
def century2 (c : Nat) : Nat := if c > 50 then 1900 + c else 2000 + c

/-- The three-group magnitude disambiguation of lines 702-715; the code
returns in every branch, with no month/day range validation. -/
def threeGroupFallback (a b c : Nat) : String :=
  if a > 31 then fmtDate a b c
  else if c ≥ 100 then
    if a > 12 then fmtDate c b a
    else fmtDate c a b
  else fmtDate (century2 c) a b

/-- The compact-digit path of lines 717-735: strip non-digits, require 4-6
digits, last two are the year, the rest splits into month and day, and the
result is range-checked. -/
def compactFallback (l : List Char) : Option String :=
  let digitsOnly := l.filter Char.isDigit
  if 4 ≤ digitsOnly.length ∧ digitsOnly.length ≤ 6 then
    let year := century2 (digitsToNat (digitsOnly.drop (digitsOnly.length - 2)))
    let rest := digitsOnly.take (digitsOnly.length - 2)
    let md : Option (Nat × Nat) :=
      if rest.length = 4 then
        some (digitsToNat (rest.take 2), digitsToNat (rest.drop 2))
      else if rest.length = 3 then
        some (digitsToNat (rest.take 1), digitsToNat (rest.drop 1))
      else if rest.length = 2 then
        some (digitsToNat (rest.take 1), digitsToNat (rest.drop 1))
      else none
    match md with
    | some (mm, dd) =>
      if 1 ≤ mm ∧ mm ≤ 12 ∧ 1 ≤ dd ∧ dd ≤ 31 then
        some (fmtDate year mm dd)
      else none
    | none => none
  else none

/-- Lines 700-737 of `normalize_date`: the fallback applied when no strict
template matched. -/
def normalize_date_fallback (s : String) : Option String :=
  match digitRuns s.data with
  | [na, nb, nc] =>
    some (threeGroupFallback (digitsToNat na) (digitsToNat nb)
      (digitsToNat nc))
  | _ => compactFallback s.data

/-- `normalize_date` (lines 673-737): the strict `strptime` stage is the
external parameter `strict`; when it fails the fallback runs.  (Leading and
trailing whitespace stripping cannot change digit runs, so it is absorbed
into `strict`.) -/
def normalize_date (strict : String → Option String) (s : String) :
    Option String :=
  match strict s with
  | some d => some d
  | none => normalize_date_fallback s

/-- Spec-side decomposition of the compact path: the digits of the input. -/
def compactDigits (s : String) : List Char := s.data.filter Char.isDigit

/-- Spec-side: the digit run with the trailing two-digit year stripped. -/
def compactRest (s : String) : List Char :=
  (compactDigits s).take ((compactDigits s).length - 2)

/-- Spec-side: how many leading digits form the month (1 or 2). -/
def compactWidth (s : String) : Nat :=
  if (compactRest s).length = 4 then 2 else 1

/-- Spec-side: the month assigned by the compact path. -/
def compactMM (s : String) : Nat :=
  digitsToNat ((compactRest s).take (compactWidth s))

/-- Spec-side: the day assigned by the compact path. -/
def compactDD (s : String) : Nat :=
  digitsToNat ((compactRest s).drop (compactWidth s))

/-- Spec-side: the two-digit year of the compact path. -/
def compactYY (s : String) : Nat :=
  digitsToNat ((compactDigits s).drop ((compactDigits s).length - 2))

theorem fallback_not3 (s : String)
    (h : (digitRuns s.data).length ≠ 3) :
    normalize_date_fallback s = compactFallback s.data := by
  unfold normalize_date_fallback
  rcases hl : digitRuns s.data with _ | ⟨x, _ | ⟨y, _ | ⟨z, _ | ⟨w, t⟩⟩⟩⟩
  · rfl
  · rfl
  · rfl
  · exact absurd (by rw [hl]; rfl) h
  · rfl

theorem fallback_three (s : String) (na nb nc : List Char)
    (h : digitRuns s.data = [na, nb, nc]) :
    normalize_date_fallback s
      = some (threeGroupFallback (digitsToNat na) (digitsToNat nb)
          (digitsToNat nc)) := by
  unfold normalize_date_fallback
  rw [h]

theorem compactFallback_eq (s : String)
    (h4 : 4 ≤ (compactDigits s).length) (h6 : (compactDigits s).length ≤ 6) :
    compactFallback s.data
      = (if 1 ≤ compactMM s ∧ compactMM s ≤ 12
            ∧ 1 ≤ compactDD s ∧ compactDD s ≤ 31 then
          some (fmtDate (century2 (compactYY s)) (compactMM s) (compactDD s))
        else none) := by
  have hds : s.data.filter Char.isDigit = compactDigits s := rfl
  have hrl : (compactRest s).length = (compactDigits s).length - 2 := by
    unfold compactRest
    rw [List.length_take]
    omega
  unfold compactFallback
  rw [hds, if_pos ⟨h4, h6⟩]
  have hc : (compactRest s).length = 2 ∨ (compactRest s).length = 3
      ∨ (compactRest s).length = 4 := by omega
  have hrest : (compactDigits s).take ((compactDigits s).length - 2)
      = compactRest s := rfl
  have hyy : digitsToNat ((compactDigits s).drop ((compactDigits s).length - 2))
      = compactYY s := rfl
  rw [hrest, hyy]
  rcases hc with hc | hc | hc
  · have hw : compactWidth s = 1 := by
      unfold compactWidth
      rw [if_neg (by omega)]
    have hmm : digitsToNat ((compactRest s).take 1) = compactMM s := by
      unfold compactMM
      rw [hw]
    have hdd : digitsToNat ((compactRest s).drop 1) = compactDD s := by
      unfold compactDD
      rw [hw]
    dsimp only
    rw [if_neg (by omega), if_neg (by omega), if_pos hc]
    dsimp only
    rw [hmm, hdd]
  · have hw : compactWidth s = 1 := by
      unfold compactWidth
      rw [if_neg (by omega)]
    have hmm : digitsToNat ((compactRest s).take 1) = compactMM s := by
      unfold compactMM
      rw [hw]
    have hdd : digitsToNat ((compactRest s).drop 1) = compactDD s := by
      unfold compactDD
      rw [hw]
    dsimp only
    rw [if_neg (by omega), if_pos hc]
    dsimp only
    rw [hmm, hdd]
  · have hw : compactWidth s = 2 := by
      unfold compactWidth
      rw [if_pos hc]
    have hmm : digitsToNat ((compactRest s).take 2) = compactMM s := by
      unfold compactMM
      rw [hw]
    have hdd : digitsToNat ((compactRest s).drop 2) = compactDD s := by
      unfold compactDD
      rw [hw]
    dsimp only
    rw [if_pos hc]
    dsimp only
    rw [hmm, hdd]

/-- C3: on inputs where no strict template applies, the fallback behaves as
specified: with exactly three digit groups it disambiguates by magnitude (a
first group above 31 is a year in year-b-c order; else a third group of at
least 100 is a year with day-first order exactly when the first group
exceeds 12; else the third group is a two-digit year under the century rule,
with the first two groups as month-day), and otherwise it collapses all
digits into one run whose trailing two digits are the year (same century
rule), whose leading one or two digits are the month and whose remainder is
the day; in particular the three quoted examples. -/
theorem c3_fallback_rules :
    (∀ (s : String) (na nb nc : List Char),
      digitRuns s.data = [na, nb, nc] → digitsToNat na > 31 →
        normalize_date_fallback s
          = some (fmtDate (digitsToNat na) (digitsToNat nb)
              (digitsToNat nc)))
    ∧ (∀ (s : String) (na nb nc : List Char),
      digitRuns s.data = [na, nb, nc] → digitsToNat na ≤ 31 →
        digitsToNat nc ≥ 100 → digitsToNat na > 12 →
        normalize_date_fallback s
          = some (fmtDate (digitsToNat nc) (digitsToNat nb)
              (digitsToNat na)))
    ∧ (∀ (s : String) (na nb nc : List Char),
      digitRuns s.data = [na, nb, nc] → digitsToNat na ≤ 31 →
        digitsToNat nc ≥ 100 → digitsToNat na ≤ 12 →
        normalize_date_fallback s
          = some (fmtDate (digitsToNat nc) (digitsToNat na)
              (digitsToNat nb)))
    ∧ (∀ (s : String) (na nb nc : List Char),
      digitRuns s.data = [na, nb, nc] → digitsToNat na ≤ 31 →
        digitsToNat nc < 100 →
        normalize_date_fallback s
          = some (fmtDate (century2 (digitsToNat nc)) (digitsToNat na)
              (digitsToNat nb)))
    ∧ (∀ s : String, (digitRuns s.data).length ≠ 3 →
        4 ≤ (compactDigits s).length → (compactDigits s).length ≤ 6 →
        normalize_date_fallback s
          = if 1 ≤ compactMM s ∧ compactMM s ≤ 12
                ∧ 1 ≤ compactDD s ∧ compactDD s ≤ 31 then
              some (fmtDate (century2 (compactYY s)) (compactMM s)
                (compactDD s))
            else none)
    ∧ normalize_date_fallback "13-02-2024" = some "2024-02-13"
    ∧ normalize_date_fallback "02-13-2024" = some "2024-02-13"
    ∧ normalize_date_fallback "052096" = some "1996-05-20" := by
  refine ⟨?_, ?_, ?_, ?_, ?_, by decide, by decide, by decide⟩
  · intro s na nb nc h ha
    rw [fallback_three s na nb nc h]
    unfold threeGroupFallback
    rw [if_pos ha]
  · intro s na nb nc h ha hc h12
    rw [fallback_three s na nb nc h]
    unfold threeGroupFallback
    rw [if_neg (by omega), if_pos hc, if_pos h12]
  · intro s na nb nc h ha hc h12
    rw [fallback_three s na nb nc h]
    unfold threeGroupFallback
    rw [if_neg (by omega), if_pos hc, if_neg (by omega)]
  · intro s na nb nc h ha hc
    rw [fallback_three s na nb nc h]
    unfold threeGroupFallback
    rw [if_neg (by omega), if_neg (by omega)]
  · intro s h3 h4 h6
    rw [fallback_not3 s h3]
    exact compactFallback_eq s h4 h6

/-- C3 (witness): the day-first three-group rule applied to the concrete
input of the claim. -/
theorem c3_fallback_rules_witness :
    normalize_date_fallback "13-02-2024"
      = some (fmtDate (digitsToNat ['2', '0', '2', '4'])
          (digitsToNat ['0', '2']) (digitsToNat ['1', '3'])) :=
  c3_fallback_rules.2.1 "13-02-2024" ['1', '3'] ['0', '2']
    ['2', '0', '2', '4'] (by decide) (by decide) (by decide) (by decide)

/-- C4 (counterexample): the claimed failure on out-of-range month/day does
not happen in the three-group branch.  `"99-99-99"` extracts three groups,
the assigned month 99 violates `1 ≤ month ≤ 12`, yet the fallback returns
`"0099-99-99"` instead of failing.  (No strict `strptime` template accepts
`"99-99-99"`: `%Y` requires four digits and 99 is no valid month or day.) -/
theorem c4_counterexample :
    digitRuns ("99-99-99" : String).data = [['9', '9'], ['9', '9'],
        ['9', '9']]
      ∧ normalize_date_fallback "99-99-99" = some "0099-99-99"
      ∧ ¬(1 ≤ digitsToNat ['9', '9'] ∧ digitsToNat ['9', '9'] ≤ 12) := by
  refine ⟨by decide, by decide, by decide⟩

/-- C4 (amended): the parser's fallback fails exactly as the code has it:
an input with exactly three digit groups always produces a date string, with
no month/day range validation; an input with any other number of groups
fails unless its digits form a 4-6 digit run, and fails on such a run when
the assigned month/day violates `1 ≤ month ≤ 12` or `1 ≤ day ≤ 31`. -/
theorem c4_failure_conditions :
    (∀ (s : String) (na nb nc : List Char),
      digitRuns s.data = [na, nb, nc] →
        ∃ out, normalize_date_fallback s = some out)
    ∧ (∀ s : String, (digitRuns s.data).length ≠ 3 →
        ((compactDigits s).length < 4 ∨ 6 < (compactDigits s).length) →
        normalize_date_fallback s = none)
    ∧ (∀ s : String, (digitRuns s.data).length ≠ 3 →
        4 ≤ (compactDigits s).length → (compactDigits s).length ≤ 6 →
        ¬(1 ≤ compactMM s ∧ compactMM s ≤ 12
          ∧ 1 ≤ compactDD s ∧ compactDD s ≤ 31) →
        normalize_date_fallback s = none) := by
  refine ⟨?_, ?_, ?_⟩
  · intro s na nb nc h
    exact ⟨threeGroupFallback (digitsToNat na) (digitsToNat nb)
      (digitsToNat nc), fallback_three s na nb nc h⟩
  · intro s h3 hlen
    rw [fallback_not3 s h3]
    unfold compactFallback
    have hds : s.data.filter Char.isDigit = compactDigits s := rfl
    dsimp only
    rw [hds, if_neg (by omega)]
  · intro s h3 h4 h6 hbad
    rw [fallback_not3 s h3, compactFallback_eq s h4 h6, if_neg hbad]

/-- C4 (witness): the amended failure conditions applied to concrete
inputs: `"1-2"` has two groups and two digits; `"13296"` has one group of
five digits assigning day 32. -/
theorem c4_failure_conditions_witness :
    normalize_date_fallback "1-2" = none
      ∧ normalize_date_fallback "13296" = none :=
  ⟨c4_failure_conditions.2.1 "1-2" (by decide) (by decide),
    c4_failure_conditions.2.2 "13296" (by decide) (by decide) (by decide)
      (by decide)⟩

/-! ## The editing session and gallery (`PhotoEditor`)

The session state is the mutable fields of `PhotoEditor` that the claims
touch; the pixel buffer type `Img` is abstract and the image library's
operations (PIL transpose/crop/size, `Image.open` plus EXIF transposition,
EXIF date reading) are a structure of supplied functions.  A `PhotoEditor`
always holds a loaded image, so `currentImage`/`originalImage` are total
fields.  The folder contents on disk are carried in `disk` (the quantity
`generate_new_filename` snapshots); `images` is the gallery list.

Fallible external calls inside the `try:` of the two save functions get
Boolean failure oracles (`FailSpec`): `piexif.dump`, the JPEG encode, the
`path.unlink()` and — for `save_image`, which calls `load_image` inside its
`try:` — the decode of the next image.  A failing call raises, so execution
jumps to `except` with exactly the state mutated so far. -/

/-- Crop edges, `'left' | 'right' | 'top' | 'bottom'`. -/
inductive Edge where
  | left
  | right
  | top
  | bottom
deriving Repr, DecidableEq

/-- The image-library collaborator. -/
structure ImgOps (Img : Type) where
  mirror : Img → Img
  rotCW : Img → Img
  rotCCW : Img → Img
  crop : Img → Int → Int → Int → Int → Img
  width : Img → Int
  height : Img → Int
  decode : String → Img
  exifDate : String → Option String

/-- The session/gallery state: the mutable fields of `PhotoEditor`. -/
structure Editor (Img : Type) where
  folderName : String
  disk : List String
  images : List String
  currentIndex : Nat
  currentImage : Img
  originalImage : Img
  currentDate : Option String
  originalDate : Option String
  hasChanges : Bool
  cropL : Int
  cropT : Int
  cropR : Int
  cropB : Int
  recentDates : List String
deriving Repr, DecidableEq

/-- Failure oracles for the fallible external calls of a save. -/
structure FailSpec where
  dumpFails : Bool
  encodeFails : Bool
  unlinkFails : Bool
  loadFails : Bool
deriving Repr, DecidableEq

/-- One successful `image_to_save.save(str(new_path), "JPEG", exif=...,
quality=95)` call. -/
structure SaveRecord (Img : Type) where
  path : String
  codec : String
  quality : Nat
  content : Img
deriving Repr, DecidableEq

/-- `add_recent_date` (lines 739-744). -/
def add_recent_date (d : String) (l : List String) : List String :=
  (d :: l.erase d).take 9

/-- `load_image` (lines 244-271): decode (with EXIF transposition folded
into `decode`), snapshot the original, clear all edit state, read the EXIF
date into both date fields, and record it among the recent dates. -/
def load_image {Img : Type} (ops : ImgOps Img) (e : Editor Img) :
    Editor Img :=
  if e.images.isEmpty then e
  else
    let path := e.images.getD e.currentIndex ""
    let img := ops.decode path
    let d := ops.exifDate path
    { e with
      currentImage := img
      originalImage := img
      hasChanges := false
      cropL := 0
      cropT := 0
      cropR := 0
      cropB := 0
      originalDate := d
      currentDate := d
      recentDates :=
        match d with
        | some ds => add_recent_date ds e.recentDates
        | none => e.recentDates }

/-- `on_mouse_drag` (lines 559-601) with an edge being dragged: the
image-space delta (`int(delta_display / display_scale)` in the source, a
display-layer conversion) and the crop value stored at mouse-down are the
inputs.  The dragged edge is clamped to
`[0, extent - oppositeOffset - 50]`, and the dirty flag is set when any
crop offset is positive afterwards. -/
def on_mouse_drag {Img : Type} (ops : ImgOps Img) (edge : Edge)
    (dragStartCrop deltaImage : Int) (e : Editor Img) : Editor Img :=
  let imgW := ops.width e.currentImage
  let imgH := ops.height e.currentImage
  let e1 :=
    match edge with
    | Edge.left =>
      let newCrop := dragStartCrop + deltaImage
      let maxCrop := imgW - e.cropR - 50
      { e with cropL := max 0 (min newCrop maxCrop) }
    | Edge.right =>
      let newCrop := dragStartCrop - deltaImage
      let maxCrop := imgW - e.cropL - 50
      { e with cropR := max 0 (min newCrop maxCrop) }
    | Edge.top =>
      let newCrop := dragStartCrop + deltaImage
      let maxCrop := imgH - e.cropB - 50
      { e with cropT := max 0 (min newCrop maxCrop) }
    | Edge.bottom =>
      let newCrop := dragStartCrop - deltaImage
      let maxCrop := imgH - e.cropT - 50
      { e with cropB := max 0 (min newCrop maxCrop) }
  if e1.cropL > 0 ∨ e1.cropT > 0 ∨ e1.cropR > 0 ∨ e1.cropB > 0 then
    { e1 with hasChanges := true }
  else e1

/-- `mirror_image` (lines 636-641). -/
def mirror_image {Img : Type} (ops : ImgOps Img) (e : Editor Img) :
    Editor Img :=
  { e with currentImage := ops.mirror e.currentImage, hasChanges := true }

/-- `rotate_image` (lines 643-651); PIL's `ROTATE_90` is the
counter-clockwise quarter turn. -/
def rotate_image {Img : Type} (ops : ImgOps Img) (counterclockwise : Bool)
    (e : Editor Img) : Editor Img :=
  if counterclockwise then
    { e with currentImage := ops.rotCCW e.currentImage, hasChanges := true }
  else
    { e with currentImage := ops.rotCW e.currentImage, hasChanges := true }

/-- `enter_date` (lines 653-671): `raw` is the dialog result (`none` when
cancelled); an empty string is falsy and does nothing; otherwise the date is
normalised — on success the session date, dirty flag and recent dates are
updated, on failure an error box is shown (second component `true`) and the
state is unchanged. -/
def enter_date {Img : Type} (strict : String → Option String)
    (raw : Option String) (e : Editor Img) : Editor Img × Bool :=
  match raw with
  | none => (e, false)
  | some ds =>
    if ds = "" then (e, false)
    else
      match normalize_date strict ds with
      | some nd =>
        ({ e with
            currentDate := some nd
            hasChanges := true
            recentDates := add_recent_date nd e.recentDates }, false)
      | none => (e, true)

/-- `quick_select_date` (lines 746-753). -/
def quick_select_date {Img : Type} (num : Nat) (e : Editor Img) :
    Editor Img :=
  let idx := num - 1
  if idx < e.recentDates.length then
    let d := e.recentDates.getD idx ""
    { e with
      currentDate := some d
      hasChanges := true
      recentDates := add_recent_date d e.recentDates }
  else e

/-- `reset_crop` (lines 897-905): zero the offsets, leave the dirty flag
alone. -/
def reset_crop {Img : Type} (e : Editor Img) : Editor Img :=
  if e.cropL > 0 ∨ e.cropT > 0 ∨ e.cropR > 0 ∨ e.cropB > 0 then
    { e with cropL := 0, cropT := 0, cropR := 0, cropB := 0 }
  else e

/-- `undo_changes` (lines 885-895). -/
def undo_changes {Img : Type} (e : Editor Img) : Editor Img :=
  { e with
    currentImage := e.originalImage
    currentDate := e.originalDate
    cropL := 0
    cropT := 0
    cropR := 0
    cropB := 0
    hasChanges := false }

/-- `save_image` (lines 810-883).  Returns the resulting state, the list of
successful encode calls, and whether the `except` handler showed a "Failed
to save" error.  The steps inside `try:` run in source order; a failing
oracle aborts to `except` with the state mutated so far.  On full success
the function advances and loads the next image (also inside `try:`), or
redisplays when already at the last image. -/
def save_image {Img : Type} (ops : ImgOps Img) (fs : FailSpec)
    (e : Editor Img) : Editor Img × List (SaveRecord Img) × Bool :=
  let path := e.images.getD e.currentIndex ""
  let newPath := generate_new_filename e.disk path e.folderName e.currentDate
  let needsRename := newPath ≠ path
  if ¬e.hasChanges ∧ ¬needsRename then (e, [], false)
  else
    let imageToSave :=
      if e.cropL > 0 ∨ e.cropT > 0 ∨ e.cropR > 0 ∨ e.cropB > 0 then
        ops.crop e.currentImage e.cropL e.cropT
          (ops.width e.currentImage - e.cropR)
          (ops.height e.currentImage - e.cropB)
      else e.currentImage
    if fs.dumpFails then (e, [], true)
    else if fs.encodeFails then (e, [], true)
    else
      let written : SaveRecord Img := ⟨newPath, "JPEG", 95, imageToSave⟩
      let disk1 := if newPath ∈ e.disk then e.disk else e.disk ++ [newPath]
      let e1 := { e with disk := disk1 }
      if needsRename ∧ path ∈ disk1 then
        if fs.unlinkFails then (e1, [written], true)
        else
          let e2 := { e1 with
            disk := disk1.erase path
            images := e.images.set e.currentIndex newPath }
          let e3 := { e2 with
            originalImage := e.currentImage
            hasChanges := false }
          if e.currentIndex < e.images.length - 1 then
            let e4 := { e3 with currentIndex := e.currentIndex + 1 }
            if fs.loadFails then (e4, [written], true)
            else (load_image ops e4, [written], false)
          else (e3, [written], false)
      else
        let e3 := { e1 with
          originalImage := e.currentImage
          hasChanges := false }
        if e.currentIndex < e.images.length - 1 then
          let e4 := { e3 with currentIndex := e.currentIndex + 1 }
          if fs.loadFails then (e4, [written], true)
          else (load_image ops e4, [written], false)
        else (e3, [written], false)

/-- `save_current_without_advancing` (lines 907-964): like `save_image` but
with no advance/load, and it also refreshes `original_date`. -/
def save_current_without_advancing {Img : Type} (ops : ImgOps Img)
    (fs : FailSpec) (e : Editor Img) :
    Editor Img × List (SaveRecord Img) × Bool :=
  let path := e.images.getD e.currentIndex ""
  let newPath := generate_new_filename e.disk path e.folderName e.currentDate
  let needsRename := newPath ≠ path
  if ¬e.hasChanges ∧ ¬needsRename then (e, [], false)
  else
    let imageToSave :=
      if e.cropL > 0 ∨ e.cropT > 0 ∨ e.cropR > 0 ∨ e.cropB > 0 then
        ops.crop e.currentImage e.cropL e.cropT
          (ops.width e.currentImage - e.cropR)
          (ops.height e.currentImage - e.cropB)
      else e.currentImage
    if fs.dumpFails then (e, [], true)
    else if fs.encodeFails then (e, [], true)
    else
      let written : SaveRecord Img := ⟨newPath, "JPEG", 95, imageToSave⟩
      let disk1 := if newPath ∈ e.disk then e.disk else e.disk ++ [newPath]
      let e1 := { e with disk := disk1 }
      if needsRename ∧ path ∈ disk1 then
        if fs.unlinkFails then (e1, [written], true)
        else
          let e2 := { e1 with
            disk := disk1.erase path
            images := e.images.set e.currentIndex newPath }
          ({ e2 with
              originalImage := e.currentImage
              originalDate := e.currentDate
              hasChanges := false }, [written], false)
      else
        ({ e1 with
            originalImage := e.currentImage
            originalDate := e.currentDate
            hasChanges := false }, [written], false)

/-- `prev_image` (lines 976-985).  Returns the resulting state, the encode
calls, the error flag of the embedded save, and whether the "This is the
first image." boundary box was shown.  (The `load_image` here is outside
any `try:`; `decode` is total.) -/
def prev_image {Img : Type} (ops : ImgOps Img) (fs : FailSpec)
    (e : Editor Img) : Editor Img × List (SaveRecord Img) × Bool × Bool :=
  if e.hasChanges then
    let saved := save_current_without_advancing ops fs e
    if saved.1.currentIndex > 0 then
      (load_image ops
          { saved.1 with currentIndex := saved.1.currentIndex - 1 },
        saved.2.1, saved.2.2, false)
    else (saved.1, saved.2.1, saved.2.2, true)
  else
    if e.currentIndex > 0 then
      (load_image ops { e with currentIndex := e.currentIndex - 1 },
        [], false, false)
    else (e, [], false, true)

/-- A concrete image-library instantiation used by the witnesses: an image
is its (width, height) pair. -/
def testOps : ImgOps (Int × Int) where
  mirror := fun p => p
  rotCW := fun p => (p.2, p.1)
  rotCCW := fun p => (p.2, p.1)
  crop := fun _ l t r b => (r - l, b - t)
  width := fun p => p.1
  height := fun p => p.2
  decode := fun _ => (100, 100)
  exifDate := fun _ => none

/-! ### Claim C5 -/

theorem clamp_bounds (new maxc : Int) (h : 0 ≤ maxc) :
    0 ≤ max 0 (min new maxc) ∧ max 0 (min new maxc) ≤ maxc :=
  ⟨le_max_left 0 _, max_le h (min_le_right new maxc)⟩

/-- A concrete editor over `testOps` images, clean and with no crop. -/
def baseEditor (img : Int × Int) : Editor (Int × Int) where
  folderName := "trip"
  disk := ["a.jpg", "b.jpg"]
  images := ["a.jpg", "b.jpg"]
  currentIndex := 0
  currentImage := img
  originalImage := img
  currentDate := none
  originalDate := none
  hasChanges := false
  cropL := 0
  cropT := 0
  cropR := 0
  cropB := 0
  recentDates := []

/-- C5 (counterexample): dragging the left edge of a clean 100x100 image far
to the right clamps the offset to exactly `100 - 0 - 50 = 50`, so the two
offsets on the x axis sum to `extent - minimumRemaining` — the claim's
"never produces offsets whose sum ... is >= axisExtent - minimumRemaining"
is violated at the boundary. -/
theorem c5_counterexample :
    (on_mouse_drag testOps Edge.left 0 1000 (baseEditor (100, 100))).cropL
        = 50
      ∧ (on_mouse_drag testOps Edge.left 0 1000 (baseEditor (100, 100))).cropR
        = 0
      ∧ testOps.width (baseEditor (100, 100)).currentImage - 50
        ≤ (on_mouse_drag testOps Edge.left 0 1000
              (baseEditor (100, 100))).cropL
          + (on_mouse_drag testOps Edge.left 0 1000
              (baseEditor (100, 100))).cropR := by
  refine ⟨by decide, by decide, by decide⟩

/-- What a drag guarantees: clamping of the dragged edge into
`[0, extent - oppositeOffset - 50]`, axis sums staying at most
`extent - 50`, and the other three offsets unchanged. -/
def dragSpec {Img : Type} (ops : ImgOps Img) (edge : Edge)
    (dragStartCrop deltaImage : Int) (e e' : Editor Img) : Prop :=
  (0 ≤ e'.cropL ∧ 0 ≤ e'.cropT ∧ 0 ≤ e'.cropR ∧ 0 ≤ e'.cropB)
  ∧ e'.cropL + e'.cropR ≤ ops.width e.currentImage - 50
  ∧ e'.cropT + e'.cropB ≤ ops.height e.currentImage - 50
  ∧ (edge = Edge.left →
      e'.cropL = max 0 (min (dragStartCrop + deltaImage)
        (ops.width e.currentImage - e.cropR - 50))
      ∧ e'.cropR = e.cropR ∧ e'.cropT = e.cropT ∧ e'.cropB = e.cropB)
  ∧ (edge = Edge.right →
      e'.cropR = max 0 (min (dragStartCrop - deltaImage)
        (ops.width e.currentImage - e.cropL - 50))
      ∧ e'.cropL = e.cropL ∧ e'.cropT = e.cropT ∧ e'.cropB = e.cropB)
  ∧ (edge = Edge.top →
      e'.cropT = max 0 (min (dragStartCrop + deltaImage)
        (ops.height e.currentImage - e.cropB - 50))
      ∧ e'.cropB = e.cropB ∧ e'.cropL = e.cropL ∧ e'.cropR = e.cropR)
  ∧ (edge = Edge.bottom →
      e'.cropB = max 0 (min (dragStartCrop - deltaImage)
        (ops.height e.currentImage - e.cropT - 50))
      ∧ e'.cropT = e.cropT ∧ e'.cropL = e.cropL ∧ e'.cropR = e.cropR)

theorem drag_left_cropL {Img : Type} (ops : ImgOps Img) (s d : Int)
    (e : Editor Img) :
    (on_mouse_drag ops Edge.left s d e).cropL
      = max 0 (min (s + d) (ops.width e.currentImage - e.cropR - 50)) := by
  unfold on_mouse_drag
  dsimp only
  split <;> rfl

theorem drag_left_cropR {Img : Type} (ops : ImgOps Img) (s d : Int)
    (e : Editor Img) :
    (on_mouse_drag ops Edge.left s d e).cropR = e.cropR := by
  unfold on_mouse_drag
  dsimp only
  split <;> rfl

theorem drag_left_cropT {Img : Type} (ops : ImgOps Img) (s d : Int)
    (e : Editor Img) :
    (on_mouse_drag ops Edge.left s d e).cropT = e.cropT := by
  unfold on_mouse_drag
  dsimp only
  split <;> rfl

theorem drag_left_cropB {Img : Type} (ops : ImgOps Img) (s d : Int)
    (e : Editor Img) :
    (on_mouse_drag ops Edge.left s d e).cropB = e.cropB := by
  unfold on_mouse_drag
  dsimp only
  split <;> rfl

theorem drag_right_cropR {Img : Type} (ops : ImgOps Img) (s d : Int)
    (e : Editor Img) :
    (on_mouse_drag ops Edge.right s d e).cropR
      = max 0 (min (s - d) (ops.width e.currentImage - e.cropL - 50)) := by
  unfold on_mouse_drag
  dsimp only
  split <;> rfl

theorem drag_right_cropL {Img : Type} (ops : ImgOps Img) (s d : Int)
    (e : Editor Img) :
    (on_mouse_drag ops Edge.right s d e).cropL = e.cropL := by
  unfold on_mouse_drag
  dsimp only
  split <;> rfl

theorem drag_right_cropT {Img : Type} (ops : ImgOps Img) (s d : Int)
    (e : Editor Img) :
    (on_mouse_drag ops Edge.right s d e).cropT = e.cropT := by
  unfold on_mouse_drag
  dsimp only
  split <;> rfl

theorem drag_right_cropB {Img : Type} (ops : ImgOps Img) (s d : Int)
    (e : Editor Img) :
    (on_mouse_drag ops Edge.right s d e).cropB = e.cropB := by
  unfold on_mouse_drag
  dsimp only
  split <;> rfl

theorem drag_top_cropT {Img : Type} (ops : ImgOps Img) (s d : Int)
    (e : Editor Img) :
    (on_mouse_drag ops Edge.top s d e).cropT
      = max 0 (min (s + d) (ops.height e.currentImage - e.cropB - 50)) := by
  unfold on_mouse_drag
  dsimp only
  split <;> rfl

theorem drag_top_cropB {Img : Type} (ops : ImgOps Img) (s d : Int)
    (e : Editor Img) :
    (on_mouse_drag ops Edge.top s d e).cropB = e.cropB := by
  unfold on_mouse_drag
  dsimp only
  split <;> rfl

theorem drag_top_cropL {Img : Type} (ops : ImgOps Img) (s d : Int)
    (e : Editor Img) :
    (on_mouse_drag ops Edge.top s d e).cropL = e.cropL := by
  unfold on_mouse_drag
  dsimp only
  split <;> rfl

theorem drag_top_cropR {Img : Type} (ops : ImgOps Img) (s d : Int)
    (e : Editor Img) :
    (on_mouse_drag ops Edge.top s d e).cropR = e.cropR := by
  unfold on_mouse_drag
  dsimp only
  split <;> rfl

theorem drag_bottom_cropB {Img : Type} (ops : ImgOps Img) (s d : Int)
    (e : Editor Img) :
    (on_mouse_drag ops Edge.bottom s d e).cropB
      = max 0 (min (s - d) (ops.height e.currentImage - e.cropT - 50)) := by
  unfold on_mouse_drag
  dsimp only
  split <;> rfl

theorem drag_bottom_cropT {Img : Type} (ops : ImgOps Img) (s d : Int)
    (e : Editor Img) :
    (on_mouse_drag ops Edge.bottom s d e).cropT = e.cropT := by
  unfold on_mouse_drag
  dsimp only
  split <;> rfl

theorem drag_bottom_cropL {Img : Type} (ops : ImgOps Img) (s d : Int)
    (e : Editor Img) :
    (on_mouse_drag ops Edge.bottom s d e).cropL = e.cropL := by
  unfold on_mouse_drag
  dsimp only
  split <;> rfl

theorem drag_bottom_cropR {Img : Type} (ops : ImgOps Img) (s d : Int)
    (e : Editor Img) :
    (on_mouse_drag ops Edge.bottom s d e).cropR = e.cropR := by
  unfold on_mouse_drag
  dsimp only
  split <;> rfl

/-- C5 (amended): for any edge, pointer delta and starting offsets
satisfying the invariant (offsets nonnegative, each axis keeping at least
50 pixels), `on_mouse_drag` clamps the dragged edge's new offset to
`[0, imageExtentOnThatAxis - oppositeEdgeOffset - 50]`, never produces
offsets whose sum on one axis exceeds `axisExtent - 50` (the sum can reach
that bound exactly), and leaves the other three offsets unchanged. -/
theorem c5_drag_clamped {Img : Type} (ops : ImgOps Img) (edge : Edge)
    (dragStartCrop deltaImage : Int) (e : Editor Img)
    (hL : 0 ≤ e.cropL) (hT : 0 ≤ e.cropT) (hR : 0 ≤ e.cropR)
    (hB : 0 ≤ e.cropB)
    (hx : e.cropL + e.cropR ≤ ops.width e.currentImage - 50)
    (hy : e.cropT + e.cropB ≤ ops.height e.currentImage - 50) :
    dragSpec ops edge dragStartCrop deltaImage e
      (on_mouse_drag ops edge dragStartCrop deltaImage e) := by
  unfold dragSpec
  cases edge with
  | left =>
    obtain ⟨hb1, hb2⟩ := clamp_bounds (dragStartCrop + deltaImage)
      (ops.width e.currentImage - e.cropR - 50) (by omega)
    have h1 := drag_left_cropL ops dragStartCrop deltaImage e
    have h2 := drag_left_cropR ops dragStartCrop deltaImage e
    have h3 := drag_left_cropT ops dragStartCrop deltaImage e
    have h4 := drag_left_cropB ops dragStartCrop deltaImage e
    exact ⟨⟨by omega, by omega, by omega, by omega⟩, by omega, by omega,
      fun _ => ⟨h1, h2, h3, h4⟩, fun hh => absurd hh (by decide),
      fun hh => absurd hh (by decide), fun hh => absurd hh (by decide)⟩
  | right =>
    obtain ⟨hb1, hb2⟩ := clamp_bounds (dragStartCrop - deltaImage)
      (ops.width e.currentImage - e.cropL - 50) (by omega)
    have h1 := drag_right_cropR ops dragStartCrop deltaImage e
    have h2 := drag_right_cropL ops dragStartCrop deltaImage e
    have h3 := drag_right_cropT ops dragStartCrop deltaImage e
    have h4 := drag_right_cropB ops dragStartCrop deltaImage e
    exact ⟨⟨by omega, by omega, by omega, by omega⟩, by omega, by omega,
      fun hh => absurd hh (by decide), fun _ => ⟨h1, h2, h3, h4⟩,
      fun hh => absurd hh (by decide), fun hh => absurd hh (by decide)⟩
  | top =>
    obtain ⟨hb1, hb2⟩ := clamp_bounds (dragStartCrop + deltaImage)
      (ops.height e.currentImage - e.cropB - 50) (by omega)
    have h1 := drag_top_cropT ops dragStartCrop deltaImage e
    have h2 := drag_top_cropB ops dragStartCrop deltaImage e
    have h3 := drag_top_cropL ops dragStartCrop deltaImage e
    have h4 := drag_top_cropR ops dragStartCrop deltaImage e
    exact ⟨⟨by omega, by omega, by omega, by omega⟩, by omega, by omega,
      fun hh => absurd hh (by decide), fun hh => absurd hh (by decide),
      fun _ => ⟨h1, h2, h3, h4⟩, fun hh => absurd hh (by decide)⟩
  | bottom =>
    obtain ⟨hb1, hb2⟩ := clamp_bounds (dragStartCrop - deltaImage)
      (ops.height e.currentImage - e.cropT - 50) (by omega)
    have h1 := drag_bottom_cropB ops dragStartCrop deltaImage e
    have h2 := drag_bottom_cropT ops dragStartCrop deltaImage e
    have h3 := drag_bottom_cropL ops dragStartCrop deltaImage e
    have h4 := drag_bottom_cropR ops dragStartCrop deltaImage e
    exact ⟨⟨by omega, by omega, by omega, by omega⟩, by omega, by omega,
      fun hh => absurd hh (by decide), fun hh => absurd hh (by decide),
      fun hh => absurd hh (by decide), fun _ => ⟨h1, h2, h3, h4⟩⟩

/-- C5 (witness): the clamping guarantee at the concrete boundary drag of
the counterexample. -/
theorem c5_drag_clamped_witness :
    dragSpec testOps Edge.left 0 1000 (baseEditor (100, 100))
      (on_mouse_drag testOps Edge.left 0 1000 (baseEditor (100, 100))) :=
  c5_drag_clamped testOps Edge.left 0 1000 (baseEditor (100, 100))
    (by decide) (by decide) (by decide) (by decide) (by decide) (by decide)

/-! ### Claim C6 -/

/-- A freshly started editor on a one-image folder (the state before
`load_image` runs at the end of `__init__`). -/
def c6Initial : Editor (Int × Int) where
  folderName := "trip"
  disk := ["a.jpg"]
  images := ["a.jpg"]
  currentIndex := 0
  currentImage := (0, 0)
  originalImage := (0, 0)
  currentDate := none
  originalDate := none
  hasChanges := false
  cropL := 0
  cropT := 0
  cropR := 0
  cropB := 0
  recentDates := []

/-- Load the single image, set date `"2005-03-04"`, drag the left crop edge
60 pixels inward, then save; the gallery is at its last (only) image, so
`save_image` does not advance. -/
def c6Final : Editor (Int × Int) :=
  (save_image testOps ⟨false, false, false, false⟩
    (on_mouse_drag testOps Edge.left 0 60
      (enter_date (fun _ => none) (some "2005-03-04")
        (load_image testOps c6Initial)).1)).1

/-- C6: evaluating the code at the failing input.  After a successful save
of the last image, `save_image` clears the dirty flag and refreshes
`original_image` but leaves the crop offsets and `original_date` stale:
the session ends with `dirty = false` while `currentDate ≠ originalDate`
and `cropL = 50 ≠ 0`, violating the clean-session invariant (its sibling
`save_current_without_advancing` does refresh `original_date`, line 960,
which `save_image` omits). -/
theorem c6_last_save_breaks_invariant :
    c6Final.hasChanges = false
      ∧ c6Final.currentDate = some "2005-03-04"
      ∧ c6Final.originalDate = none
      ∧ c6Final.cropL = 50
      ∧ c6Final.originalImage = c6Final.currentImage := by
  refine ⟨by decide, by decide, by decide, by decide, by decide⟩

/-! ### Claim C7 -/

/-- The user edits quantified over in C7. -/
inductive EditOp where
  | mirror
  | rotateCW
  | rotateCCW
  | cropDrag (edge : Edge) (dragStartCrop deltaImage : Int)
  | setDate (raw : Option String)
  | quickSelect (num : Nat)
  | resetCrop
deriving Repr

/-- Dispatch one edit to its handler. -/
def applyOp {Img : Type} (ops : ImgOps Img) (strict : String → Option String)
    (e : Editor Img) : EditOp → Editor Img
  | EditOp.mirror => mirror_image ops e
  | EditOp.rotateCW => rotate_image ops false e
  | EditOp.rotateCCW => rotate_image ops true e
  | EditOp.cropDrag edge s d => on_mouse_drag ops edge s d e
  | EditOp.setDate raw => (enter_date strict raw e).1
  | EditOp.quickSelect n => quick_select_date n e
  | EditOp.resetCrop => reset_crop e

/-- A whole editing sequence. -/
def applyOps {Img : Type} (ops : ImgOps Img)
    (strict : String → Option String) (e : Editor Img) (l : List EditOp) :
    Editor Img :=
  l.foldl (applyOp ops strict) e

theorem applyOp_preserves_originals {Img : Type} (ops : ImgOps Img)
    (strict : String → Option String) (e : Editor Img) (op : EditOp) :
    (applyOp ops strict e op).originalImage = e.originalImage
      ∧ (applyOp ops strict e op).originalDate = e.originalDate := by
  cases op with
  | mirror => exact ⟨rfl, rfl⟩
  | rotateCW => exact ⟨rfl, rfl⟩
  | rotateCCW => exact ⟨rfl, rfl⟩
  | cropDrag edge s d =>
    cases edge <;>
      (unfold applyOp on_mouse_drag; dsimp only; split <;> exact ⟨rfl, rfl⟩)
  | setDate raw =>
    cases raw with
    | none => exact ⟨rfl, rfl⟩
    | some ds =>
      unfold applyOp enter_date
      dsimp only
      by_cases hds : ds = ""
      · rw [if_pos hds]
        exact ⟨rfl, rfl⟩
      · rw [if_neg hds]
        cases hn : normalize_date strict ds <;> exact ⟨rfl, rfl⟩
  | quickSelect n =>
    unfold applyOp quick_select_date
    dsimp only
    split <;> exact ⟨rfl, rfl⟩
  | resetCrop =>
    unfold applyOp reset_crop
    dsimp only
    split <;> exact ⟨rfl, rfl⟩

theorem applyOps_preserves_originals {Img : Type} (ops : ImgOps Img)
    (strict : String → Option String) :
    ∀ (l : List EditOp) (e : Editor Img),
      (applyOps ops strict e l).originalImage = e.originalImage
        ∧ (applyOps ops strict e l).originalDate = e.originalDate := by
  intro l
  induction l with
  | nil => intro e; exact ⟨rfl, rfl⟩
  | cons op t ih =>
    intro e
    have h1 := applyOp_preserves_originals ops strict e op
    have h2 := ih (applyOp ops strict e op)
    unfold applyOps at h2 ⊢
    rw [List.foldl_cons]
    exact ⟨by rw [h2.1, h1.1], by rw [h2.2, h1.2]⟩

theorem load_image_fields {Img : Type} (ops : ImgOps Img) (e : Editor Img)
    (h : e.images.isEmpty = false) :
    (load_image ops e).currentImage
        = ops.decode (e.images.getD e.currentIndex "")
      ∧ (load_image ops e).originalImage
        = ops.decode (e.images.getD e.currentIndex "")
      ∧ (load_image ops e).currentDate
        = ops.exifDate (e.images.getD e.currentIndex "")
      ∧ (load_image ops e).originalDate
        = ops.exifDate (e.images.getD e.currentIndex "")
      ∧ (load_image ops e).hasChanges = false
      ∧ (load_image ops e).cropL = 0 ∧ (load_image ops e).cropT = 0
      ∧ (load_image ops e).cropR = 0 ∧ (load_image ops e).cropB = 0 := by
  unfold load_image
  rw [if_neg (by simp [h])]
  exact ⟨rfl, rfl, rfl, rfl, rfl, rfl, rfl, rfl, rfl⟩

/-- C7: after loading an image and applying any sequence of mirror, rotate,
crop-drag, date-set (raw or quick-select) and crop-reset operations,
`undo_changes` restores the working image to pixel-identity with the
originally loaded (decoded) image, makes `currentDate` equal the date read
at load, zeroes all four crop offsets, and clears the dirty flag. -/
theorem c7_undo_restores {Img : Type} (ops : ImgOps Img)
    (strict : String → Option String) (e0 : Editor Img)
    (hne : e0.images.isEmpty = false) (l : List EditOp) :
    (undo_changes (applyOps ops strict (load_image ops e0) l)).currentImage
        = ops.decode (e0.images.getD e0.currentIndex "")
      ∧ (undo_changes
            (applyOps ops strict (load_image ops e0) l)).currentDate
        = ops.exifDate (e0.images.getD e0.currentIndex "")
      ∧ (undo_changes (applyOps ops strict (load_image ops e0) l)).cropL = 0
      ∧ (undo_changes (applyOps ops strict (load_image ops e0) l)).cropT = 0
      ∧ (undo_changes (applyOps ops strict (load_image ops e0) l)).cropR = 0
      ∧ (undo_changes (applyOps ops strict (load_image ops e0) l)).cropB = 0
      ∧ (undo_changes
            (applyOps ops strict (load_image ops e0) l)).hasChanges
        = false := by
  obtain ⟨hoi, hod⟩ :=
    applyOps_preserves_originals ops strict l (load_image ops e0)
  obtain ⟨_, hli, _, hld, _⟩ := load_image_fields ops e0 hne
  have hci : (undo_changes
      (applyOps ops strict (load_image ops e0) l)).currentImage
      = (applyOps ops strict (load_image ops e0) l).originalImage := rfl
  have hcd : (undo_changes
      (applyOps ops strict (load_image ops e0) l)).currentDate
      = (applyOps ops strict (load_image ops e0) l).originalDate := rfl
  exact ⟨by rw [hci, hoi, hli], by rw [hcd, hod, hld], rfl, rfl, rfl, rfl,
    rfl⟩

/-- C7 (witness): undo after a concrete mirror / date-set / crop-drag
sequence on the two-image test editor. -/
theorem c7_undo_restores_witness :
    (undo_changes (applyOps testOps (fun _ => none)
          (load_image testOps (baseEditor (0, 0)))
          [EditOp.mirror, EditOp.setDate (some "2005-03-04"),
            EditOp.cropDrag Edge.left 0 60])).currentImage
        = testOps.decode
            ((baseEditor (0, 0)).images.getD (baseEditor (0, 0)).currentIndex
              "")
      ∧ (undo_changes (applyOps testOps (fun _ => none)
            (load_image testOps (baseEditor (0, 0)))
            [EditOp.mirror, EditOp.setDate (some "2005-03-04"),
              EditOp.cropDrag Edge.left 0 60])).currentDate
        = testOps.exifDate
            ((baseEditor (0, 0)).images.getD (baseEditor (0, 0)).currentIndex
              "")
      ∧ (undo_changes (applyOps testOps (fun _ => none)
            (load_image testOps (baseEditor (0, 0)))
            [EditOp.mirror, EditOp.setDate (some "2005-03-04"),
              EditOp.cropDrag Edge.left 0 60])).cropL = 0
      ∧ (undo_changes (applyOps testOps (fun _ => none)
            (load_image testOps (baseEditor (0, 0)))
            [EditOp.mirror, EditOp.setDate (some "2005-03-04"),
              EditOp.cropDrag Edge.left 0 60])).cropT = 0
      ∧ (undo_changes (applyOps testOps (fun _ => none)
            (load_image testOps (baseEditor (0, 0)))
            [EditOp.mirror, EditOp.setDate (some "2005-03-04"),
              EditOp.cropDrag Edge.left 0 60])).cropR = 0
      ∧ (undo_changes (applyOps testOps (fun _ => none)
            (load_image testOps (baseEditor (0, 0)))
            [EditOp.mirror, EditOp.setDate (some "2005-03-04"),
              EditOp.cropDrag Edge.left 0 60])).cropB = 0
      ∧ (undo_changes (applyOps testOps (fun _ => none)
            (load_image testOps (baseEditor (0, 0)))
            [EditOp.mirror, EditOp.setDate (some "2005-03-04"),
              EditOp.cropDrag Edge.left 0 60])).hasChanges = false :=
  c7_undo_restores testOps (fun _ => none) (baseEditor (0, 0)) (by decide)
    [EditOp.mirror, EditOp.setDate (some "2005-03-04"),
      EditOp.cropDrag Edge.left 0 60]

/-! ### Claim C8 -/

/-- Equality of every in-memory field of the editor (the folder contents on
disk, `disk`, is filesystem state, not an in-memory session field). -/
def inMemEq {Img : Type} (a b : Editor Img) : Prop :=
  a.images = b.images ∧ a.currentIndex = b.currentIndex
    ∧ a.currentImage = b.currentImage ∧ a.originalImage = b.originalImage
    ∧ a.currentDate = b.currentDate ∧ a.originalDate = b.originalDate
    ∧ a.hasChanges = b.hasChanges
    ∧ a.cropL = b.cropL ∧ a.cropT = b.cropT ∧ a.cropR = b.cropR
    ∧ a.cropB = b.cropB ∧ a.recentDates = b.recentDates

/-- An editor with pending changes, used by several witnesses. -/
def c8Dirty : Editor (Int × Int) :=
  { baseEditor (100, 100) with hasChanges := true }

/-- C8 (counterexample): a decode failure while loading the *next* image is
raised inside `save_image`'s `try:` and surfaced as "Failed to save", yet by
then the save had fully succeeded: the dirty flag has been cleared and the
gallery cursor advanced — the session does not remain `Dirty` and in-memory
fields changed. -/
theorem c8_counterexample :
    (save_image testOps ⟨false, false, false, true⟩ c8Dirty).2.2 = true
      ∧ (save_image testOps ⟨false, false, false, true⟩
          c8Dirty).1.hasChanges = false
      ∧ c8Dirty.hasChanges = true
      ∧ (save_image testOps ⟨false, false, false, true⟩
          c8Dirty).1.currentIndex = 1
      ∧ c8Dirty.currentIndex = 0 := by
  refine ⟨by decide, by decide, by decide, by decide, by decide⟩

set_option maxHeartbeats 2000000 in
/-- C8 (amended): when the failure is in the save pipeline proper — the
EXIF dump, the JPEG encode or the delete-of-original (`fs.loadFails =
false`) — an error result leaves every in-memory field of the session
unchanged, and in particular the session is exactly as dirty as before (a
failed save of a dirty session remains `Dirty`).  Only an error raised
while loading the next image after a complete save (the counterexample)
escapes this. -/
theorem c8_early_failure_state_unchanged {Img : Type} (ops : ImgOps Img)
    (fs : FailSpec) (e : Editor Img) (hload : fs.loadFails = false) :
    (save_image ops fs e).2.2 = true → inMemEq (save_image ops fs e).1 e := by
  obtain ⟨du, en, un, lo⟩ := fs
  have hlo : lo = false := hload
  subst hlo
  cases du <;> cases en <;> cases un <;>
    (unfold save_image inMemEq
     dsimp only
     repeat' split
     all_goals intro h
     all_goals
       first
         | exact absurd h Bool.false_ne_true
         | exact absurd (by assumption) Bool.false_ne_true
         | exact ⟨rfl, rfl, rfl, rfl, rfl, rfl, rfl, rfl, rfl, rfl, rfl,
             rfl⟩)

/-- C8 (witness): a dump failure on the dirty test editor errors out with
all in-memory fields untouched. -/
theorem c8_early_failure_state_unchanged_witness :
    inMemEq (save_image testOps ⟨true, false, false, false⟩ c8Dirty).1
      c8Dirty :=
  c8_early_failure_state_unchanged testOps ⟨true, false, false, false⟩
    c8Dirty (by decide) (by decide)

/-! ### Claim C9 -/

theorem save_current_keeps_index {Img : Type} (ops : ImgOps Img)
    (fs : FailSpec) (e : Editor Img) :
    (save_current_without_advancing ops fs e).1.currentIndex
      = e.currentIndex := by
  unfold save_current_without_advancing
  dsimp only
  repeat' split
  all_goals rfl

/-- C9 (counterexample): `previous()` at index 0 with a dirty session first
runs the auto-save: the session stops being dirty and a file is written —
state does change — before the boundary box is shown (the cursor indeed
stays put). -/
theorem c9_counterexample :
    (prev_image testOps ⟨false, false, false, false⟩ c8Dirty).2.2.2 = true
      ∧ (prev_image testOps ⟨false, false, false, false⟩
          c8Dirty).1.hasChanges = false
      ∧ c8Dirty.hasChanges = true
      ∧ (prev_image testOps ⟨false, false, false, false⟩ c8Dirty).2.1 ≠ []
      ∧ (prev_image testOps ⟨false, false, false, false⟩
          c8Dirty).1.currentIndex = 0 := by
  refine ⟨by decide, by decide, by decide, by decide, by decide⟩

/-- C9 (amended): at gallery index 0, `previous()` never moves the cursor
and always reports the boundary condition; when the session is clean it is a
pure no-op (no state change, nothing written, no error).  When the session
is dirty, the save-without-advance runs first and does mutate session and
disk (the counterexample). -/
theorem c9_prev_at_zero {Img : Type} (ops : ImgOps Img) (fs : FailSpec)
    (e : Editor Img) (h0 : e.currentIndex = 0) :
    (e.hasChanges = false → prev_image ops fs e = (e, [], false, true))
      ∧ (prev_image ops fs e).1.currentIndex = 0
      ∧ (prev_image ops fs e).2.2.2 = true := by
  have hk := save_current_keeps_index ops fs e
  refine ⟨?_, ?_, ?_⟩
  · intro hc
    unfold prev_image
    rw [if_neg (by simp [hc]), if_neg (by omega)]
  · unfold prev_image
    dsimp only
    by_cases hc : e.hasChanges = true
    · rw [if_pos hc, if_neg (by rw [hk, h0]; omega)]
      exact hk.trans h0
    · rw [if_neg hc, if_neg (by rw [h0]; omega)]
      exact h0
  · unfold prev_image
    dsimp only
    by_cases hc : e.hasChanges = true
    · rw [if_pos hc, if_neg (by rw [hk, h0]; omega)]
    · rw [if_neg hc, if_neg (by rw [h0]; omega)]

/-- C9 (witness): the clean no-op at index 0 on the test editor. -/
theorem c9_prev_at_zero_witness :
    (prev_image testOps ⟨false, false, false, false⟩ (baseEditor (0, 0))
        = (baseEditor (0, 0), [], false, true))
      ∧ (prev_image testOps ⟨false, false, false, false⟩
          (baseEditor (0, 0))).1.currentIndex = 0
      ∧ (prev_image testOps ⟨false, false, false, false⟩
          (baseEditor (0, 0))).2.2.2 = true := by
  have h := c9_prev_at_zero testOps ⟨false, false, false, false⟩
    (baseEditor (0, 0)) (by decide)
  exact ⟨h.1 (by decide), h.2.1, h.2.2⟩

/-! ### Claim C10 -/

theorem generate_ends_with_ext (disk : List String) (orig folder : String)
    (d : Option String) :
    ∃ stem, generate_new_filename disk orig folder d
      = stem ++ pyLower (pySuffix orig) := by
  cases d with
  | some date =>
    exact ⟨_, by rw [generate_dated_eq disk orig folder date]; rfl⟩
  | none =>
    exact ⟨_, by rw [generate_plain_eq disk orig folder]; rfl⟩

/-- A dirty editor whose current image is a `.PNG` file. -/
def c10Editor : Editor (Int × Int) :=
  { baseEditor (100, 100) with
    images := ["scan.PNG", "b.jpg"]
    disk := ["scan.PNG", "b.jpg"]
    hasChanges := true }

set_option maxHeartbeats 2000000 in
/-- C10: every file a save writes — through `save_image` (lines 859-862) or
through `save_current_without_advancing` (lines 948-951, the save path of
`previous()` on a dirty session) — is encoded with the "JPEG" codec at
quality 95, while its filename ends in the source file's lower-cased
original extension; concretely, saving the `.PNG` source writes a
JPEG-encoded file named `"trip 1.png"`, whose extension `.png` is not
`.jpg`. -/
theorem c10_saves_jpeg_quality95 :
    (∀ {Img : Type} (ops : ImgOps Img) (fs : FailSpec) (e : Editor Img)
      (r : SaveRecord Img), r ∈ (save_image ops fs e).2.1 →
        r.codec = "JPEG" ∧ r.quality = 95
          ∧ ∃ stem, r.path
            = stem ++ pyLower (pySuffix (e.images.getD e.currentIndex "")))
    ∧ (∀ {Img : Type} (ops : ImgOps Img) (fs : FailSpec) (e : Editor Img)
      (r : SaveRecord Img),
        r ∈ (save_current_without_advancing ops fs e).2.1 →
          r.codec = "JPEG" ∧ r.quality = 95
            ∧ ∃ stem, r.path
              = stem ++ pyLower (pySuffix (e.images.getD e.currentIndex "")))
    ∧ pyLower (pySuffix "scan.PNG") = ".png"
    ∧ (".png" : String) ≠ ".jpg"
    ∧ (save_image testOps ⟨false, false, false, false⟩ c10Editor).2.1
      = [⟨"trip 1.png", "JPEG", 95, (100, 100)⟩]
    ∧ (save_current_without_advancing testOps ⟨false, false, false, false⟩
        c10Editor).2.1
      = [⟨"trip 1.png", "JPEG", 95, (100, 100)⟩]
    ∧ pySuffix "trip 1.png" = ".png" := by
  refine ⟨?_, ?_, by decide, by decide, by decide, by decide, by decide⟩
  · intro Img ops fs e r hr
    unfold save_image at hr
    dsimp only at hr
    repeat' split at hr
    all_goals
      first
        | exact absurd hr (List.not_mem_nil r)
        | (simp only [List.mem_singleton] at hr
           subst hr
           exact ⟨rfl, rfl, generate_ends_with_ext e.disk
             (e.images.getD e.currentIndex "") e.folderName e.currentDate⟩)
  · intro Img ops fs e r hr
    unfold save_current_without_advancing at hr
    dsimp only at hr
    repeat' split at hr
    all_goals
      first
        | exact absurd hr (List.not_mem_nil r)
        | (simp only [List.mem_singleton] at hr
           subst hr
           exact ⟨rfl, rfl, generate_ends_with_ext e.disk
             (e.images.getD e.currentIndex "") e.folderName e.currentDate⟩)

/-- C10 (witness): the guarantee instantiated at the record written for the
`.PNG` source, through both save functions. -/
theorem c10_saves_jpeg_quality95_witness :
    ((⟨"trip 1.png", "JPEG", 95, ((100 : Int), (100 : Int))⟩
        : SaveRecord (Int × Int)).codec = "JPEG"
      ∧ (⟨"trip 1.png", "JPEG", 95, ((100 : Int), (100 : Int))⟩
          : SaveRecord (Int × Int)).quality = 95
      ∧ ∃ stem, (⟨"trip 1.png", "JPEG", 95, ((100 : Int), (100 : Int))⟩
          : SaveRecord (Int × Int)).path
        = stem ++ pyLower (pySuffix
            (c10Editor.images.getD c10Editor.currentIndex "")))
    ∧ ((⟨"trip 1.png", "JPEG", 95, ((100 : Int), (100 : Int))⟩
        : SaveRecord (Int × Int)).codec = "JPEG"
      ∧ (⟨"trip 1.png", "JPEG", 95, ((100 : Int), (100 : Int))⟩
          : SaveRecord (Int × Int)).quality = 95
      ∧ ∃ stem, (⟨"trip 1.png", "JPEG", 95, ((100 : Int), (100 : Int))⟩
          : SaveRecord (Int × Int)).path
        = stem ++ pyLower (pySuffix
            (c10Editor.images.getD c10Editor.currentIndex ""))) :=
  ⟨c10_saves_jpeg_quality95.1 testOps ⟨false, false, false, false⟩ c10Editor
      ⟨"trip 1.png", "JPEG", 95, ((100 : Int), (100 : Int))⟩ (by decide),
    c10_saves_jpeg_quality95.2.1 testOps ⟨false, false, false, false⟩
      c10Editor ⟨"trip 1.png", "JPEG", 95, ((100 : Int), (100 : Int))⟩
      (by decide)⟩
